import Mathlib

/-!
Shallow embedding of the goal-decomposition, reasoning-chain and
response-validation core of the gemini-cli fork, together with proofs about
the claims of the specification.

Modelling conventions:
- JavaScript numbers are modelled as exact rationals; the scoring
  arithmetic of the source stays within small decimal fractions, so no
  claim here depends on binary floating point artefacts.
- Wall-clock quantities (Date.now, executionTime, timestamps) are modelled
  as 0 or dropped: no claim mentions them.
- Fallible code (thrown TypeError, thrown plan or chain lookup errors,
  thrown cycle errors) is modelled with Option, none standing for the
  thrown error.
- JS string.split with the whitespace regex, string.includes,
  string.toLowerCase and the word-token regexes are given faithful
  executable models below.
-/

namespace Gemini

/-- Model of JS list.startsWith on character lists. -/
def startsWithList : List Char → List Char → Bool
  | _, [] => true
  | [], _ :: _ => false
  | c :: rest, p :: ps => c == p && startsWithList rest ps

/-- Model of JS string.includes: the pattern occurs as a contiguous run. -/
def includesList (pat : List Char) : List Char → Bool
  | [] => pat.isEmpty
  | c :: rest => startsWithList (c :: rest) pat || includesList pat rest

/-- JS hay.includes(pat). -/
def includesStr (hay pat : String) : Bool :=
  includesList pat.toList hay.toList

/-- Helper of `splitWs`: `inGap` says whether the previous character was
whitespace, `cur` holds the reversed characters of the segment being read. -/
def splitWsGo : Bool → List Char → List Char → List String
  | _, cur, [] => [String.mk cur.reverse]
  | inGap, cur, c :: rest =>
    if c.isWhitespace then
      if inGap then splitWsGo true [] rest
      else String.mk cur.reverse :: splitWsGo true [] rest
    else splitWsGo false (c :: cur) rest

/-- Model of JS text.split over the one-or-more-whitespace regex: segments
between maximal whitespace runs, including an empty leading or trailing
segment when the text starts or ends with whitespace. -/
def splitWs (s : String) : List String :=
  splitWsGo false [] s.toList

/-- Helper of `dedupFirst`. -/
def dedupFirstAux (seen : List String) : List String → List String
  | [] => []
  | a :: rest =>
    if a ∈ seen then dedupFirstAux seen rest
    else a :: dedupFirstAux (a :: seen) rest

/-- Model of the JS Set spread: keeps the first occurrence of each element,
in order. -/
def dedupFirst (l : List String) : List String :=
  dedupFirstAux [] l

/-- JS word character, the \w class: ASCII letters, digits and underscore. -/
def isWordChar (c : Char) : Bool :=
  c.isAlphanum || c == '_'

/-- Helper of `wordTokens`: `cur` holds the reversed characters of the run
of word characters being read. -/
def wordTokensGo : List Char → List Char → List String
  | cur, [] => if cur.isEmpty then [] else [String.mk cur.reverse]
  | cur, c :: rest =>
    if isWordChar c then wordTokensGo (c :: cur) rest
    else if cur.isEmpty then wordTokensGo [] rest
    else String.mk cur.reverse :: wordTokensGo [] rest

/-- Model of JS text.toLowerCase over the character list; the source only
lowercases ASCII content. -/
def toLowerStr (s : String) : String :=
  String.mk (s.toList.map Char.toLower)

/-- Characters of a string before the first occurrence of `stop`: the head
of the JS split on that character. -/
def beforeChar (stop : Char) (s : String) : String :=
  String.mk (s.toList.takeWhile fun c => c != stop)

/-- Model of JS text.trim over the character list. -/
def trimStr (s : String) : String :=
  String.mk (((s.toList.dropWhile Char.isWhitespace).reverse.dropWhile
    Char.isWhitespace).reverse)

/-- Maximal runs of word characters of a string, in order. A regex of the
shape used by the source, word-boundary alternatives of word-only patterns,
matches exactly at the token level. -/
def wordTokens (s : String) : List String :=
  wordTokensGo [] s.toList

/-- Issue severity, shared by the validator and the reasoning engine. -/
inductive Severity
  | low
  | medium
  | high
  | critical
  deriving DecidableEq, Repr

namespace ResponseValidator

/-- ValidationIssueType of response-validator. -/
inductive IssueType
  | tool_not_available
  | invalid_parameters
  | constraint_violation
  | logical_inconsistency
  | insufficient_evidence
  | hallucination_detected
  | circular_reasoning
  | unsafe_operation
  | missing_reasoning
  | low_confidence
  | factual_error
  | parameter_mismatch
  deriving DecidableEq, Repr

/-- Reasoning step type union of the response-validator module. -/
inductive RStepType
  | observation
  | analysis
  | hypothesis
  | verification
  | decision
  | action
  | conclusion
  deriving DecidableEq, Repr

/-- ReasoningStep of an AIResponse. -/
structure ReasoningStep where
  type : RStepType
  content : String
  evidence : List String
  confidence : ℚ
  deriving DecidableEq, Repr

/-- ToolCall of an AIResponse. The untyped parameter record is modelled as
a key-value list of strings: the rules read only the key set and the
command value. -/
structure ToolCall where
  name : String
  parameters : List (String × String)
  id : Option String := none
  reasoning : Option String := none
  deriving DecidableEq, Repr

/-- AIResponse. The timestamp and metadata fields are dropped: no rule
reads them. -/
structure AIResponse where
  content : String
  toolCalls : List ToolCall
  reasoning : Option (List ReasoningStep) := none
  confidence : Option ℚ := none
  deriving DecidableEq, Repr

/-- PromptContext restricted to the fields the validation rules read. -/
structure PromptContext where
  availableTools : List String
  workingDirectory : String := ""
  constraints : List String := []
  deriving DecidableEq, Repr

/-- ValidationConstraints. -/
structure ValidationConstraints where
  minimumConfidence : ℚ
  allowedTools : List String
  forbiddenOperations : List String
  requireReasoning : Bool
  requireEvidence : Bool
  safetyChecks : Bool
  factChecking : Bool
  maxToolCalls : Nat
  timeoutMs : Nat
  deriving DecidableEq, Repr

/-- ValidationIssue. -/
structure ValidationIssue where
  type : IssueType
  severity : Severity
  message : String
  location : String
  suggestedFix : Option String := none
  evidence : Option (List String) := none
  deriving DecidableEq, Repr

/-- ValidationResult. -/
structure ValidationResult where
  isValid : Bool
  score : ℚ
  issues : List ValidationIssue
  suggestions : List String
  correctedResponse : Option AIResponse
  allowExecution : Bool
  deriving DecidableEq, Repr

/-- ToolAvailabilityRule.validate: a critical issue per tool call whose
name is not among context.availableTools. -/
def toolAvailabilityRule (resp : AIResponse) (ctx : PromptContext)
    (_cs : ValidationConstraints) : List ValidationIssue :=
  resp.toolCalls.filterMap fun tc =>
    if ctx.availableTools.contains tc.name then none
    else some
      { type := IssueType.tool_not_available
        severity := Severity.critical
        message := "Tool '" ++ tc.name ++ "' is not available"
        location := "tool_calls"
        suggestedFix := some ("Use available tools: " ++ String.intercalate ", " ctx.availableTools)
        evidence := some ["Available tools: " ++ String.intercalate ", " ctx.availableTools] }

/-- ParameterValidationRule.validate: a high issue per tool call with an
empty parameter record. -/
def parameterValidationRule (resp : AIResponse) (_ctx : PromptContext)
    (_cs : ValidationConstraints) : List ValidationIssue :=
  resp.toolCalls.filterMap fun tc =>
    if tc.parameters.isEmpty then
      some
        { type := IssueType.invalid_parameters
          severity := Severity.high
          message := "Tool '" ++ tc.name ++ "' called without parameters"
          location := "tool_calls"
          suggestedFix := some "Provide required parameters for tool call" }
    else none

/-- Lookup of a parameter value, modelling property access on the record. -/
def paramValue (params : List (String × String)) (key : String) : Option String :=
  (params.find? fun kv => kv.fst == key).map Prod.snd

/-- SafetyCheckRule.validate: with safety checks enabled, a high
unsafe-operation issue per shell call whose command contains rm -rf. -/
def safetyCheckRule (resp : AIResponse) (_ctx : PromptContext)
    (cs : ValidationConstraints) : List ValidationIssue :=
  if !cs.safetyChecks then []
  else
    resp.toolCalls.filterMap fun tc =>
      if tc.name == "shell" then
        match paramValue tc.parameters "command" with
        | some command =>
          if command != "" && includesStr command "rm -rf" then
            some
              { type := IssueType.unsafe_operation
                severity := Severity.high
                message := "Potentially dangerous shell command detected"
                location := "tool_calls"
                suggestedFix := some "Use safer file operations or add confirmation"
                evidence := some ["Command: " ++ command] }
          else none
        | none => none
      else none

/-- ReasoningValidationRule.validate. -/
def reasoningValidationRule (resp : AIResponse) (_ctx : PromptContext)
    (cs : ValidationConstraints) : List ValidationIssue :=
  if cs.requireReasoning && (resp.reasoning.getD []).isEmpty then
    [{ type := IssueType.missing_reasoning
       severity := Severity.high
       message := "Reasoning is required but not provided"
       location := "reasoning"
       suggestedFix := some "Add explicit reasoning steps" }]
  else []

/-- ConfidenceValidationRule.validate. The JS truthiness guard on the
optional confidence is the c not equal 0 test. -/
def confidenceValidationRule (resp : AIResponse) (_ctx : PromptContext)
    (cs : ValidationConstraints) : List ValidationIssue :=
  match resp.confidence with
  | some c =>
    if c ≠ 0 ∧ c < cs.minimumConfidence then
      [{ type := IssueType.low_confidence
         severity := Severity.medium
         message := "Response confidence below threshold"
         location := "response"
         suggestedFix := some "Provide more evidence or acknowledge uncertainty" }]
    else []
  | none => []

/-- ConstraintComplianceRule.validate. -/
def constraintComplianceRule (resp : AIResponse) (_ctx : PromptContext)
    (cs : ValidationConstraints) : List ValidationIssue :=
  cs.forbiddenOperations.filterMap fun forbidden =>
    if includesStr (toLowerStr resp.content) (toLowerStr forbidden) then
      some
        { type := IssueType.constraint_violation
          severity := Severity.high
          message := "Response contains forbidden operation: " ++ forbidden
          location := "content"
          suggestedFix := some "Remove or replace forbidden operation"
          evidence := some ["Forbidden: " ++ forbidden] }
    else none

/-- HallucinationDetectionRule.validate. -/
def hallucinationDetectionRule (resp : AIResponse) (ctx : PromptContext)
    (_cs : ValidationConstraints) : List ValidationIssue :=
  resp.toolCalls.filterMap fun tc =>
    if ctx.availableTools.contains tc.name then none
    else some
      { type := IssueType.hallucination_detected
        severity := Severity.high
        message := "Hallucinated tool call: " ++ tc.name
        location := "tool_calls"
        suggestedFix := some "Use only verified available tools"
        evidence := some ["Non-existent tool: " ++ tc.name] }

/-- Contradictory word pairs of LogicalConsistencyRule. -/
def contradictoryPairs : List (String × String) :=
  [("exists", "does not exist"), ("true", "false"), ("valid", "invalid"),
   ("possible", "impossible")]

/-- LogicalConsistencyRule.areContradictory. -/
def areContradictory (step1 step2 : ReasoningStep) : Bool :=
  let content1 := toLowerStr step1.content
  let content2 := toLowerStr step2.content
  contradictoryPairs.any fun pq =>
    (includesStr content1 pq.fst && includesStr content2 pq.snd) ||
    (includesStr content1 pq.snd && includesStr content2 pq.fst)

/-- Adjacent-pair scan of LogicalConsistencyRule.validate, carrying the
index used in the location tag. -/
def logicalConsistencyScan : Nat → List ReasoningStep → List ValidationIssue
  | i, a :: b :: rest =>
    (if areContradictory a b then
      [{ type := IssueType.logical_inconsistency
         severity := Severity.medium
         message := "Contradictory reasoning steps detected"
         location := "reasoning_step_" ++ toString i
         suggestedFix := some "Resolve contradiction in reasoning"
         evidence := some ["Step " ++ toString i ++ ": " ++ a.content,
                           "Step " ++ toString (i + 1) ++ ": " ++ b.content] }]
     else []) ++ logicalConsistencyScan (i + 1) (b :: rest)
  | _, _ => []

/-- LogicalConsistencyRule.validate. -/
def logicalConsistencyRule (resp : AIResponse) (_ctx : PromptContext)
    (_cs : ValidationConstraints) : List ValidationIssue :=
  match resp.reasoning with
  | none => []
  | some steps => logicalConsistencyScan 0 steps

/-- Issues of all eight registered rules, in registration order. None of
the embedded rules can fail, so the medium-severity rule-failure capture
of the source never fires here. -/
def allRuleIssues (resp : AIResponse) (ctx : PromptContext)
    (cs : ValidationConstraints) : List ValidationIssue :=
  toolAvailabilityRule resp ctx cs ++ parameterValidationRule resp ctx cs ++
  safetyCheckRule resp ctx cs ++ reasoningValidationRule resp ctx cs ++
  confidenceValidationRule resp ctx cs ++ constraintComplianceRule resp ctx cs ++
  hallucinationDetectionRule resp ctx cs ++ logicalConsistencyRule resp ctx cs

/-- generateSuggestions. -/
def generateSuggestions (issues : List ValidationIssue) : List String :=
  let s1 := if (issues.filter fun i => i.severity == Severity.critical).length > 0 then
    ["Address critical issues before proceeding",
     "Verify tool availability and parameter correctness"] else []
  let s2 := if (issues.filter fun i => i.severity == Severity.high).length > 0 then
    ["Review high-severity issues for safety and accuracy",
     "Consider alternative approaches for flagged operations"] else []
  let s3 := if (issues.filter fun i => i.type == IssueType.tool_not_available).length > 0 then
    ["Use only verified available tools",
     "Check tool registry before attempting tool calls"] else []
  let s4 := if (issues.filter fun i => i.type == IssueType.missing_reasoning).length > 0 then
    ["Provide explicit reasoning for complex decisions",
     "Include evidence to support conclusions"] else []
  dedupFirst (s1 ++ s2 ++ s3 ++ s4)

/-- Severity weight subtracted per issue by calculateValidationScore. -/
def severityWeight : Severity → ℚ
  | Severity.critical => 0.4
  | Severity.high => 0.2
  | Severity.medium => 0.1
  | Severity.low => 0.05

/-- calculateValidationScore: start at 1, subtract the weights, add the
reasoning and high-confidence bonuses, floor at 0. -/
def calculateValidationScore (issues : List ValidationIssue)
    (resp : AIResponse) : ℚ :=
  let afterIssues := issues.foldl (fun s i => s - severityWeight i.severity) (1 : ℚ)
  let afterReasoning := afterIssues +
    (match resp.reasoning with
     | some l => if l.length > 0 then (0.1 : ℚ) else 0
     | none => 0)
  let afterConfidence := afterReasoning +
    (match resp.confidence with
     | some c => if c ≠ 0 ∧ (0.8 : ℚ) < c then (0.05 : ℚ) else 0
     | none => 0)
  max afterConfidence 0

/-- shouldAllowExecution. -/
def shouldAllowExecution (issues : List ValidationIssue) (score : ℚ)
    (cs : ValidationConstraints) : Bool :=
  if (issues.filter fun i => i.severity == Severity.critical).length > 0 then false
  else if cs.safetyChecks &&
      (issues.filter fun i => i.type == IssueType.unsafe_operation).length > 0 then false
  else decide ((0.6 : ℚ) ≤ score)

/-- generateCorrectedResponse. -/
def generateCorrectedResponse (original : AIResponse)
    (issues : List ValidationIssue) : Option AIResponse :=
  let toolIssues := issues.filter fun i =>
    includesStr i.location "tool_call" &&
    (i.type == IssueType.tool_not_available || i.type == IssueType.unsafe_operation)
  let validToolCalls := original.toolCalls.filter fun tc =>
    !(toolIssues.any fun i => includesStr i.message tc.name)
  if validToolCalls.length ≠ original.toolCalls.length then
    some { original with
            toolCalls := validToolCalls
            content := original.content ++
              "\n\n[Note: Some tool calls were removed due to validation issues]" }
  else none

/-- validateResponse. -/
def validateResponse (resp : AIResponse) (ctx : PromptContext)
    (cs : ValidationConstraints) : ValidationResult :=
  let issues := allRuleIssues resp ctx cs
  let suggestions := generateSuggestions issues
  let score := calculateValidationScore issues resp
  let allowExecution := shouldAllowExecution issues score cs
  let correctedResponse := generateCorrectedResponse resp issues
  { isValid := (issues.filter fun i =>
      i.severity == Severity.critical || i.severity == Severity.high).length == 0
    score := score
    issues := issues
    suggestions := suggestions
    correctedResponse := correctedResponse
    allowExecution := allowExecution }

end ResponseValidator

/-- Three-valued tier shared by risk levels and complexity estimates. -/
inductive Tier
  | low
  | medium
  | high
  deriving DecidableEq, Repr

namespace ReasoningEngine

/-- Reasoning step type union of the reasoning engine. -/
inductive RStepType
  | observation
  | hypothesis
  | verification
  | conclusion
  | action
  deriving DecidableEq, Repr

/-- Validation status of a reasoning step. -/
inductive VStatus
  | pending
  | validated
  | rejected
  deriving DecidableEq, Repr

/-- Lifecycle status of a chain. -/
inductive ChainStatus
  | active
  | completed
  | failed
  | paused
  deriving DecidableEq, Repr

/-- ReasoningStep. The timestamp field is dropped: nothing reads it. -/
structure ReasoningStep where
  id : String
  type : RStepType
  content : String
  confidence : ℚ
  evidence : List String
  assumptions : List String
  alternatives : List String
  validationStatus : VStatus
  deriving DecidableEq, Repr

/-- ReasoningContext. -/
structure ReasoningContext where
  availableTools : List String
  workingDirectory : String := ""
  previousChains : List String := []
  constraints : List String := []
  timeoutMs : Nat := 0
  maxSteps : Nat := 0
  validationRequired : Bool := true
  deriving DecidableEq, Repr

/-- ReasoningChain. The createdAt and updatedAt wall-clock fields are
dropped. -/
structure ReasoningChain where
  id : String
  goal : String
  steps : List ReasoningStep
  currentStep : Nat
  overallConfidence : ℚ
  status : ChainStatus
  context : ReasoningContext
  deriving DecidableEq, Repr

/-- ReasoningIssue type union. -/
inductive RIssueType
  | logical_inconsistency
  | missing_evidence
  | weak_assumption
  | circular_reasoning
  | tool_availability
  | constraint_violation
  deriving DecidableEq, Repr

/-- ReasoningIssue. -/
structure ReasoningIssue where
  type : RIssueType
  severity : Severity
  stepId : String
  description : String
  suggestedFix : String
  deriving DecidableEq, Repr

/-- ReasoningValidation. -/
structure ReasoningValidation where
  isValid : Bool
  confidence : ℚ
  issues : List ReasoningIssue
  suggestions : List String
  deriving DecidableEq, Repr

/-- DecisionOption. -/
structure DecisionOption where
  id : String
  description : String
  pros : List String
  cons : List String
  riskLevel : Tier
  feasibilityScore : ℚ
  requiredTools : List String
  deriving DecidableEq, Repr

/-- DecisionPoint. The timestamp field is dropped. -/
structure DecisionPoint where
  id : String
  question : String
  options : List DecisionOption
  selectedOption : Option String := none
  rationale : String := ""
  confidence : ℚ := 0
  deriving DecidableEq, Repr

/-- startReasoning. The random chain identifier of the source is modelled
by a fixed string: no claim reads it. -/
def startReasoning (goal : String) (context : ReasoningContext) : ReasoningChain :=
  { id := "reasoning"
    goal := goal
    steps := [{ id := "step-0"
                type := RStepType.observation
                content := "Starting reasoning for goal: " ++ goal
                confidence := 0.9
                evidence := ["Goal: " ++ goal]
                assumptions := []
                alternatives := []
                validationStatus := VStatus.validated }]
    currentStep := 0
    overallConfidence := 0
    status := ChainStatus.active
    context := context }

/-- Token counts behind calculateSimilarity: size of the intersection
(keeping the duplicates of the first token list, as the JS filter does)
and size of the token union. -/
def similarityCounts (text1 text2 : String) : Nat × Nat :=
  let words1 := splitWs text1
  let words2 := splitWs text2
  let intersection := words1.filter fun w => words2.contains w
  let union := dedupFirst (words1 ++ words2)
  (intersection.length, union.length)

/-- calculateSimilarity: shared-token count of the first text against the
second, over the size of the token union. -/
def calculateSimilarity (text1 text2 : String) : ℚ :=
  ((similarityCounts text1 text2).fst : ℚ) / ((similarityCounts text1 text2).snd : ℚ)

/-- hasCircularReasoning: the candidate step against every stored step but
the last one (the loop of the source stops at steps.length - 1, and it
runs before the candidate is appended). -/
def hasCircularReasoning (step : ReasoningStep) (chain : ReasoningChain) : Bool :=
  chain.steps.dropLast.any fun prevStep =>
    decide ((0.8 : ℚ) < calculateSimilarity (toLowerStr step.content) (toLowerStr prevStep.content))

/-- isLogicallyConsistent: the three recognized transitions. -/
def isLogicallyConsistent (prevStep currentStep : ReasoningStep) : Bool :=
  (prevStep.type == RStepType.hypothesis && currentStep.type == RStepType.verification) ||
  (prevStep.type == RStepType.observation && currentStep.type == RStepType.hypothesis) ||
  (prevStep.type == RStepType.verification && currentStep.type == RStepType.conclusion)

/-- Per-type confidence bonus of calculateStepConfidence. -/
def stepTypeBonus : RStepType → ℚ
  | RStepType.observation => 0.1
  | RStepType.verification => 0.2
  | RStepType.conclusion => 0.1
  | _ => 0

/-- calculateStepConfidence, called before the step is appended, so the
chain consistency check reads the element at index length - 2 of the
chain as stored. -/
def calculateStepConfidence (step : ReasoningStep) (chain : ReasoningChain) : ℚ :=
  let c1 : ℚ := 0.5 +
    (if step.evidence.length > 0 then min ((step.evidence.length : ℚ) * 0.1) 0.3 else 0)
  let c2 : ℚ := c1 +
    (if step.assumptions.length == 0 then (0.1 : ℚ)
     else -(min ((step.assumptions.length : ℚ) * 0.05) 0.2))
  let c3 : ℚ := c2 + stepTypeBonus step.type
  let c4 : ℚ := c3 +
    (if chain.steps.length > 1 then
      match chain.steps.get? (chain.steps.length - 2) with
      | some prevStep => if isLogicallyConsistent prevStep step then (0.1 : ℚ) else 0
      | none => 0
     else 0)
  min c4 1

/-- calculateOverallConfidence. With no validated step the source divides
zero by zero producing NaN; the rational model yields 0 there, and no
claim depends on that case. -/
def calculateOverallConfidence (chain : ReasoningChain) : ℚ :=
  if chain.steps.length = 0 then 0
  else
    let validSteps := chain.steps.filter fun s => s.validationStatus == VStatus.validated
    let avgConfidence := (validSteps.foldl (fun sum s => sum + s.confidence) 0) /
      (validSteps.length : ℚ)
    let rejectedSteps := chain.steps.filter fun s => s.validationStatus == VStatus.rejected
    max (avgConfidence - (rejectedSteps.length : ℚ) * 0.1) 0

/-- Fixed tool names of the extraction regex. -/
def toolTokenNames : List String :=
  ["read_file", "write_file", "edit", "ls", "grep", "shell", "web_fetch",
   "web_search", "glob"]

/-- extractToolsFromContent: the word-boundary alternation matches exactly
the maximal word tokens equal to a fixed name, or starting with mcp_
followed by at least one more word character. -/
def extractToolsFromContent (content : String) : List String :=
  (wordTokens content).filter fun t =>
    toolTokenNames.contains t || (startsWithList t.toList "mcp_".toList && 4 < t.length)

/-- Severity weight of calculateValidationConfidence. -/
def rIssueWeight : Severity → ℚ
  | Severity.critical => 0.4
  | Severity.high => 0.2
  | Severity.medium => 0.1
  | Severity.low => 0.05

/-- calculateValidationConfidence. -/
def calculateValidationConfidence (issues : List ReasoningIssue) : ℚ :=
  max (issues.foldl (fun c i => c - rIssueWeight i.severity) 1) 0

/-- EvidenceValidationRule.validate, reduced to its issue list. -/
def evidenceValidationRule (step : ReasoningStep) : List ReasoningIssue :=
  if step.type == RStepType.conclusion && step.evidence.isEmpty then
    [{ type := RIssueType.missing_evidence
       severity := Severity.high
       stepId := step.id
       description := "Conclusion lacks supporting evidence"
       suggestedFix := "Add evidence from previous steps" }]
  else []

/-- AssumptionValidationRule.validate, reduced to its issue list. -/
def assumptionValidationRule (step : ReasoningStep) : List ReasoningIssue :=
  if step.assumptions.length > 3 then
    [{ type := RIssueType.weak_assumption
       severity := Severity.medium
       stepId := step.id
       description := "Too many assumptions"
       suggestedFix := "Reduce assumptions or provide more evidence" }]
  else []

/-- LogicalConsistencyRule.validate of the reasoning engine, reduced to
its issue list. It also reads index length - 2 of the stored chain. -/
def logicalFlowRule (step : ReasoningStep) (chain : ReasoningChain) : List ReasoningIssue :=
  if chain.steps.length > 1 then
    match chain.steps.get? (chain.steps.length - 2) with
    | some prevStep =>
      if prevStep.type == RStepType.conclusion && step.type == RStepType.hypothesis then
        [{ type := RIssueType.logical_inconsistency
           severity := Severity.medium
           stepId := step.id
           description := "New hypothesis after conclusion"
           suggestedFix := "Consider if new hypothesis is necessary" }]
      else []
    | none => []
  else []

/-- ConstraintValidationRule.validate, reduced to its issue list. -/
def constraintValidationRule (step : ReasoningStep) (chain : ReasoningChain) :
    List ReasoningIssue :=
  chain.context.constraints.filterMap fun constraint =>
    if includesStr (toLowerStr step.content) (toLowerStr constraint) then
      some
        { type := RIssueType.constraint_violation
          severity := Severity.high
          stepId := step.id
          description := "Violates constraint: " ++ constraint
          suggestedFix := "Modify approach to respect constraints" }
    else none

/-- validateReasoningStep over the registered tool names `reg`. Each rule
object returns its issues with isValid true exactly when the list is
empty, so the conditional pushes of the source amount to concatenation. -/
def validateReasoningStep (reg : List String) (step : ReasoningStep)
    (chain : ReasoningChain) : ReasoningValidation :=
  let ruleIssues := evidenceValidationRule step ++ assumptionValidationRule step ++
    logicalFlowRule step chain ++ constraintValidationRule step chain
  let toolIssues := if step.type == RStepType.action then
      (extractToolsFromContent step.content).filterMap fun tool =>
        if reg.contains tool then none
        else some
          { type := RIssueType.tool_availability
            severity := Severity.high
            stepId := step.id
            description := "Tool '" ++ tool ++ "' is not available"
            suggestedFix := "Use available tools: " ++ String.intercalate ", " reg }
    else []
  let circularIssues := if hasCircularReasoning step chain then
      [{ type := RIssueType.circular_reasoning
         severity := Severity.high
         stepId := step.id
         description := "Circular reasoning detected"
         suggestedFix := "Provide new evidence or approach" }]
    else []
  let issues := ruleIssues ++ toolIssues ++ circularIssues
  { isValid := (issues.filter fun i => i.severity == Severity.critical).isEmpty &&
      (issues.filter fun i => i.severity == Severity.high).isEmpty
    confidence := calculateValidationConfidence issues
    issues := issues
    suggestions := [] }

/-- addReasoningStep on a chain already looked up (the source throws when
the chain identifier is unknown; every claim here starts from an existing
chain). Returns the appended step and the updated chain. -/
def addReasoningStep (reg : List String) (chain : ReasoningChain)
    (stepType : RStepType) (content : String) (evidence : List String := [])
    (assumptions : List String := []) (alternatives : List String := []) :
    ReasoningStep × ReasoningChain :=
  let step0 : ReasoningStep :=
    { id := "step-" ++ toString chain.steps.length
      type := stepType
      content := content
      confidence := 0
      evidence := evidence
      assumptions := assumptions
      alternatives := alternatives
      validationStatus := VStatus.pending }
  let step1 := { step0 with confidence := calculateStepConfidence step0 chain }
  let validation := validateReasoningStep reg step1 chain
  let step2 := if validation.isValid then
      { step1 with validationStatus := VStatus.validated }
    else
      { step1 with
          validationStatus := VStatus.rejected
          evidence := step1.evidence ++
            ["Validation issues: " ++
              String.intercalate ", " (validation.issues.map fun i => i.description)] }
  let newSteps := chain.steps ++ [step2]
  let chain2 := { chain with steps := newSteps, currentStep := newSteps.length - 1 }
  let chain3 := { chain2 with overallConfidence := calculateOverallConfidence chain2 }
  (step2, chain3)

/-- Decimal rendering of toFixed(2), rounding half away from zero. Only
message strings read it. -/
def toFixed2 (q : ℚ) : String :=
  let a : ℚ := |q| * 100 + 0.5
  let n : Nat := (⌊a⌋).toNat
  let fracStr := (if n % 100 < 10 then "0" else "") ++ toString (n % 100)
  (if q < 0 then "-" else "") ++ toString (n / 100) ++ "." ++ fracStr

/-- calculateFeasibilityScore over the registered tool names. -/
def calculateFeasibilityScore (reg : List String) (option : DecisionOption) : ℚ :=
  let s1 : ℚ := 0.5 +
    (if option.requiredTools.all fun tool => reg.contains tool then (0.3 : ℚ) else -0.2)
  let s2 : ℚ := s1 +
    (match option.riskLevel with
     | Tier.low => (0.2 : ℚ)
     | Tier.medium => 0
     | Tier.high => -0.1)
  let s3 : ℚ := s2 +
    (if option.cons.length < option.pros.length then (0.1 : ℚ)
     else if option.pros.length < option.cons.length then -0.1
     else 0)
  min (max s3 0) 1

/-- makeDecision on a chain already looked up. Reading options at index 0
of an empty list leaves selectedOption undefined, and the following
property access throws a TypeError: that abort is the none branch, which
returns no option, no updated decision point and no updated chain. -/
def makeDecision (reg : List String) (chain : ReasoningChain)
    (decisionPoint : DecisionPoint) (rationale : Option String := none) :
    Option (DecisionOption × DecisionPoint × ReasoningChain) :=
  match decisionPoint.options with
  | [] => none
  | selectedOption :: _ =>
    let newRationale := rationale.getD
      ("Selected based on highest feasibility score (" ++
        toFixed2 selectedOption.feasibilityScore ++ ")")
    let dp := { decisionPoint with
                  selectedOption := some selectedOption.id
                  rationale := newRationale
                  confidence := selectedOption.feasibilityScore }
    let stepAndChain := addReasoningStep reg chain RStepType.conclusion
      ("Decision made: " ++ selectedOption.description)
      ["Feasibility score: " ++ toFixed2 selectedOption.feasibilityScore,
       "Rationale: " ++ newRationale]
      ["Option is feasible with available tools"]
      []
    some (selectedOption, dp, stepAndChain.snd)

end ReasoningEngine

namespace HierarchicalPlanner

/-- Plan step type union. -/
inductive StepType
  | analysis
  | tool_call
  | verification
  | decision
  | synthesis
  deriving DecidableEq, Repr

/-- PlanStep. -/
structure PlanStep where
  id : String
  title : String
  description : String
  type : StepType
  dependencies : List String
  estimatedComplexity : Tier
  requiredTools : List String
  expectedOutput : Option String := none
  validationCriteria : Option (List String) := none
  fallbackStrategy : Option String := none
  deriving DecidableEq, Repr

/-- StepResult. The wall-clock executionTime is modelled as 0. -/
structure StepResult where
  stepId : String
  success : Bool
  output : String
  toolsUsed : List String
  validationPassed : Bool
  executionTime : Nat
  confidence : ℚ
  warnings : List String
  errors : List String
  deriving DecidableEq, Repr

/-- HierarchicalPlan. The createdAt wall-clock field is dropped. -/
structure HierarchicalPlan where
  id : String
  title : String
  description : String
  goal : String
  steps : List PlanStep
  estimatedDuration : Nat
  riskLevel : Tier
  availableTools : List String
  contextConstraints : List String
  deriving DecidableEq, Repr

/-- ValidationResult of the planner. -/
structure ValidationResult where
  isValid : Bool
  errors : List String
  warnings : List String
  suggestions : List String
  deriving DecidableEq, Repr

/-- Lookup of a step by identifier: the first match, as Array.find does. -/
def findStep (steps : List PlanStep) (stepId : String) : Option PlanStep :=
  steps.find? fun s => s.id == stepId

/-- Fuel bounding the depth-first recursion of the cycle check. Every
fresh recursive call adds a new identifier to the visited set, so this
bound is never reached; the lemmas below prove that. -/
def cycleFuel (steps : List PlanStep) : Nat :=
  steps.length + (steps.map fun s => s.dependencies).flatten.length + 1

/-- Loop of hasCycle over the dependency list of one step, abstracted over
the recursive visit `f`: once a cycle is found the remaining dependencies
are skipped, as the early return of the source does. -/
def cycleDepsLoop (f : List String → String → Bool × List String) :
    List String → List String → Bool × List String
  | visited, [] => (false, visited)
  | visited, dep :: rest =>
    let r := f visited dep
    if r.fst then (true, r.snd) else cycleDepsLoop f r.snd rest

/-- hasCycle of hasCyclicDependencies: depth-first traversal carrying the
recursion stack and the visited set shared across calls. The fuel bounds
the recursion depth; the adequacy lemmas below show the zero branch is
never reached from `hasCyclicDependencies`. -/
def hasCycleAux (steps : List PlanStep) : Nat → List String → List String →
    String → Bool × List String
  | 0, _, visited, _ => (false, visited)
  | fuel + 1, stack, visited, stepId =>
    if stepId ∈ stack then (true, visited)
    else if stepId ∈ visited then (false, visited)
    else
      match findStep steps stepId with
      | none => (false, stepId :: visited)
      | some s =>
        cycleDepsLoop (fun v d => hasCycleAux steps fuel (stepId :: stack) v d)
          (stepId :: visited) s.dependencies

/-- Outer loop of hasCyclicDependencies, sharing the visited set. -/
def hasCycleOuter (steps : List PlanStep) (pending : List PlanStep)
    (visited : List String) : Bool :=
  match pending with
  | [] => false
  | s :: rest =>
    let r := hasCycleAux steps (cycleFuel steps) [] visited s.id
    if r.fst then true else hasCycleOuter steps rest r.snd

/-- hasCyclicDependencies. -/
def hasCyclicDependencies (steps : List PlanStep) : Bool :=
  hasCycleOuter steps steps []

/-- validatePlan against the registered tool names `reg`. -/
def validatePlan (reg : List String) (plan : HierarchicalPlan) : ValidationResult :=
  let cycleErrors := if hasCyclicDependencies plan.steps then
      ["Plan contains circular dependencies"] else []
  let toolErrors := (plan.steps.map fun step =>
    step.requiredTools.filterMap fun tool =>
      if reg.contains tool then none
      else some ("Required tool '" ++ tool ++ "' is not available for step '" ++
        step.id ++ "'")).flatten
  let stepIds := plan.steps.map fun s => s.id
  let orphanErrors := (plan.steps.map fun step =>
    step.dependencies.filterMap fun dep =>
      if stepIds.contains dep then none
      else some ("Step '" ++ step.id ++ "' depends on non-existent step '" ++
        dep ++ "'")).flatten
  let complexityWarnings :=
    if (plan.steps.filter fun s => s.estimatedComplexity == Tier.high).length > 3 then
      ["Plan has many high-complexity steps, consider breaking down further"] else []
  let criteriaWarnings := plan.steps.filterMap fun step =>
    if (step.validationCriteria.getD []).isEmpty then
      some ("Step '" ++ step.id ++ "' lacks validation criteria")
    else none
  let errors := cycleErrors ++ toolErrors ++ orphanErrors
  { isValid := errors.isEmpty
    errors := errors
    warnings := complexityWarnings ++ criteriaWarnings
    suggestions := [] }

/-- Loop of topologicalSort.visit over one dependency list, abstracted
over the recursive visit `f`; none propagates the thrown cycle error. -/
def topoDepsLoop (f : List PlanStep × List String → String →
    Option (List PlanStep × List String)) :
    List PlanStep × List String → List String →
    Option (List PlanStep × List String)
  | acc, [] => some acc
  | acc, dep :: rest =>
    match f acc dep with
    | none => none
    | some acc2 => topoDepsLoop f acc2 rest

/-- visit of topologicalSort. The accumulator is the sorted list and the
visited set; none models the thrown circular-dependency error (and the
unreachable fuel exhaustion). -/
def topoVisit (steps : List PlanStep) : Nat → List String →
    List PlanStep × List String → String → Option (List PlanStep × List String)
  | 0, _, _, _ => none
  | fuel + 1, visiting, acc, stepId =>
    if stepId ∈ acc.snd then some acc
    else if stepId ∈ visiting then none
    else
      match findStep steps stepId with
      | none => some acc
      | some s =>
        match topoDepsLoop (fun a d => topoVisit steps fuel (stepId :: visiting) a d)
            acc s.dependencies with
        | none => none
        | some acc2 => some (acc2.fst ++ [s], stepId :: acc2.snd)

/-- topologicalSort. -/
def topologicalSort (steps : List PlanStep) : Option (List PlanStep) :=
  (steps.foldlM (fun acc s => topoVisit steps (steps.length + 1) [] acc s.id)
    (([], []) : List PlanStep × List String)).map Prod.fst

/-- validateStepOutput: every criterion must contribute its first
lowercased word as a substring of the lowercased output. -/
def validateStepOutput (step : PlanStep) (output : String) : Bool :=
  match step.validationCriteria with
  | none => true
  | some criteria =>
    criteria.all fun criterion =>
      includesStr (toLowerStr output) (beforeChar ' ' (toLowerStr criterion))

/-- calculateStepConfidence of the planner. -/
def calculateStepConfidence (step : PlanStep) (output : String)
    (validationPassed : Bool) : ℚ :=
  let c1 : ℚ := 0.5 + (if validationPassed then (0.3 : ℚ) else 0)
  let c2 : ℚ := c1 + (if output.length > 50 then (0.1 : ℚ) else 0)
  let c3 : ℚ := c2 + (if step.estimatedComplexity == Tier.low then (0.1 : ℚ) else 0)
  min c3 1

/-- executeStep against the registered tool names `reg`. The step bodies
of the source are deterministic string producers; only the missing-tool
path fails. -/
def executeStep (reg : List String) (step : PlanStep)
    (previousResults : List StepResult) : StepResult :=
  let errors := step.requiredTools.filterMap fun toolName =>
    if reg.contains toolName then none
    else some ("Required tool '" ++ toolName ++ "' not available")
  if errors.length > 0 then
    { stepId := step.id
      success := false
      output := "Tool validation failed: " ++ String.intercalate ", " errors
      toolsUsed := []
      validationPassed := false
      executionTime := 0
      confidence := 0
      warnings := []
      errors := errors }
  else
    let outputAndTools : String × List String :=
      match step.type with
      | StepType.analysis => ("Analysis completed for step: " ++ step.title, [])
      | StepType.tool_call =>
        ("Tool call completed for step: " ++ step.title, step.requiredTools)
      | StepType.verification => ("Verification completed for step: " ++ step.title, [])
      | StepType.decision => ("Decision completed for step: " ++ step.title, [])
      | StepType.synthesis =>
        ("Synthesis completed. Successfully executed " ++
          toString (previousResults.filter fun r => r.success).length ++ " out of " ++
          toString previousResults.length ++ " steps.", [])
    let output := outputAndTools.fst
    let validationPassed := validateStepOutput step output
    { stepId := step.id
      success := true
      output := output
      toolsUsed := outputAndTools.snd
      validationPassed := validationPassed
      executionTime := 0
      confidence := calculateStepConfidence step output validationPassed
      warnings := []
      errors := [] }

/-- Dependency test of the execution loop: every dependency identifier
has a successful result in the accumulated list. -/
def depsSatisfied (step : PlanStep) (results : List StepResult) : Bool :=
  step.dependencies.all fun depId =>
    results.any fun r => r.stepId == depId && r.success

/-- Failed result synthesized for a step whose dependencies are not
satisfied; no tool is recorded. -/
def depFailResult (step : PlanStep) : StepResult :=
  { stepId := step.id
    success := false
    output := "Dependencies not satisfied: " ++ String.intercalate ", " step.dependencies
    toolsUsed := []
    validationPassed := false
    executionTime := 0
    confidence := 0
    warnings := []
    errors := ["Dependencies not satisfied"] }

/-- Loop of executePlan over the topologically sorted steps, instrumented
with a log: the second component records, for each step whose body was
invoked through executeStep, the result list accumulated at that moment. -/
def execLoop (reg : List String) : List PlanStep → List StepResult →
    List StepResult × List (PlanStep × List StepResult)
  | [], results => (results, [])
  | step :: rest, results =>
    if depsSatisfied step results then
      let stepResult := executeStep reg step results
      if !stepResult.success && step.fallbackStrategy.isNone then
        (results ++ [stepResult], [(step, results)])
      else
        let r := execLoop reg rest (results ++ [stepResult])
        (r.fst, (step, results) :: r.snd)
    else
      execLoop reg rest (results ++ [depFailResult step])

/-- executePlan with the invocation log kept. -/
def executePlanLog (reg : List String) (plan : HierarchicalPlan) :
    Option (List StepResult × List (PlanStep × List StepResult)) :=
  (topologicalSort plan.steps).map fun sortedSteps => execLoop reg sortedSteps []

/-- executePlan on a plan already looked up; none models the thrown
circular-dependency error of the sort. -/
def executePlan (reg : List String) (plan : HierarchicalPlan) :
    Option (List StepResult) :=
  (executePlanLog reg plan).map Prod.fst

/-- Early-halt trigger of the execution loop: true exactly when some step
whose dependencies were satisfied fails on execution, declares no
fallback strategy, and leaves at least one step after it unprocessed. -/
def haltTrigger (reg : List String) : List PlanStep → List StepResult → Bool
  | [], _ => false
  | step :: rest, results =>
    if depsSatisfied step results then
      let stepResult := executeStep reg step results
      if !stepResult.success && step.fallbackStrategy.isNone then !rest.isEmpty
      else haltTrigger reg rest (results ++ [stepResult])
    else
      haltTrigger reg rest (results ++ [depFailResult step])

/-- Word test of the classification regexes: the alternation of plain
words between word boundaries, case-insensitive, matches exactly when a
maximal word token of the goal equals one of the words. -/
def containsAnyWordCI (text : String) (words : List String) : Bool :=
  (wordTokens text).any fun t => words.contains (toLowerStr t)

/-- isFileSystemTask. -/
def isFileSystemTask (goal : String) : Bool :=
  containsAnyWordCI goal
    ["file", "directory", "folder", "create", "delete", "move", "copy", "read", "write"]

/-- isCodeTask. -/
def isCodeTask (goal : String) : Bool :=
  containsAnyWordCI goal
    ["code", "function", "class", "method", "debug", "refactor", "test", "compile"]

/-- isAnalysisTask. -/
def isAnalysisTask (goal : String) : Bool :=
  containsAnyWordCI goal
    ["analyze", "review", "examine", "inspect", "understand", "explain"]

/-- createFileSystemSteps. -/
def createFileSystemSteps (_goal : String) (_availableTools : List String) :
    List PlanStep :=
  [{ id := "fs-1"
     title := "Check File System State"
     description := "Examine current file system state"
     type := StepType.tool_call
     dependencies := ["verification-1"]
     estimatedComplexity := Tier.low
     requiredTools := ["ls", "read_file"]
     expectedOutput := some "Current file system state"
     validationCriteria := some ["File system state is clear"] }]

/-- createCodeSteps. -/
def createCodeSteps (_goal : String) (_availableTools : List String) : List PlanStep :=
  [{ id := "code-1"
     title := "Analyze Code Structure"
     description := "Examine existing code structure"
     type := StepType.tool_call
     dependencies := ["verification-1"]
     estimatedComplexity := Tier.medium
     requiredTools := ["read_file", "grep"]
     expectedOutput := some "Code structure analysis"
     validationCriteria := some ["Code structure is understood"] }]

/-- createAnalysisSteps. -/
def createAnalysisSteps (_goal : String) (_availableTools : List String) :
    List PlanStep :=
  [{ id := "analysis-2"
     title := "Deep Analysis"
     description := "Perform detailed analysis of the target"
     type := StepType.analysis
     dependencies := ["verification-1"]
     estimatedComplexity := Tier.medium
     requiredTools := ["read_file", "grep", "ls"]
     expectedOutput := some "Detailed analysis results"
     validationCriteria := some ["Analysis is thorough and accurate"] }]

/-- createGeneralSteps. -/
def createGeneralSteps (_goal : String) (availableTools : List String) :
    List PlanStep :=
  [{ id := "general-1"
     title := "Execute General Task"
     description := "Execute the requested task"
     type := StepType.tool_call
     dependencies := ["verification-1"]
     estimatedComplexity := Tier.medium
     requiredTools := availableTools.take 3
     expectedOutput := some "Task execution results"
     validationCriteria := some ["Task completed successfully"] }]

/-- decomposeGoal. The synthesis step is built before it is appended, so
its dependency list drops the last of the steps collected so far, exactly
as the slice of the source does. -/
def decomposeGoal (goal : String) (availableTools : List String) : List PlanStep :=
  let analysisStep : PlanStep :=
    { id := "analysis-1"
      title := "Analyze Request"
      description := "Understand the goal and current context"
      type := StepType.analysis
      dependencies := []
      estimatedComplexity := Tier.low
      requiredTools := ["read_file", "ls", "grep"]
      expectedOutput := some "Understanding of current state and requirements"
      validationCriteria := some ["Goal is clearly understood", "Context is analyzed"]
      fallbackStrategy := some "Ask for clarification if goal is unclear" }
  let verificationStep : PlanStep :=
    { id := "verification-1"
      title := "Verify Tool Availability"
      description := "Confirm all required tools are available and accessible"
      type := StepType.verification
      dependencies := ["analysis-1"]
      estimatedComplexity := Tier.low
      requiredTools := []
      expectedOutput := some "List of available and missing tools"
      validationCriteria := some ["All required tools are available"]
      fallbackStrategy := some "Suggest alternative tools or approaches" }
  let categorySteps :=
    if isFileSystemTask goal then createFileSystemSteps goal availableTools
    else if isCodeTask goal then createCodeSteps goal availableTools
    else if isAnalysisTask goal then createAnalysisSteps goal availableTools
    else createGeneralSteps goal availableTools
  let collected := [analysisStep, verificationStep] ++ categorySteps
  collected ++
    [{ id := "synthesis-1"
       title := "Synthesize Results"
       description := "Combine results from all steps and provide final answer"
       type := StepType.synthesis
       dependencies := collected.dropLast.map fun s => s.id
       estimatedComplexity := Tier.medium
       requiredTools := []
       expectedOutput := some "Complete answer to the goal"
       validationCriteria := some ["All steps completed successfully", "Goal achieved"]
       fallbackStrategy := some "Provide partial results with explanation" }]

/-- extractPlanTitle. -/
def extractPlanTitle (goal : String) : String :=
  String.mk ((trimStr (beforeChar '.' goal)).toList.take 50)

/-- calculateEstimatedDuration. -/
def calculateEstimatedDuration (steps : List PlanStep) : Nat :=
  steps.foldl
    (fun total step =>
      match step.estimatedComplexity with
      | Tier.low => total + 30
      | Tier.medium => total + 120
      | Tier.high => total + 300)
    0

/-- assessRiskLevel. -/
def assessRiskLevel (steps : List PlanStep) : Tier :=
  let highCount := (steps.filter fun s => s.estimatedComplexity == Tier.high).length
  if highCount > 2 then Tier.high
  else if highCount > 0 then Tier.medium
  else Tier.low

/-- createPlan against the registered tool names `reg`. The random plan
identifier is modelled by a fixed string and the none branch models the
thrown invalid-plan error. -/
def createPlan (reg : List String) (goal : String) (_context : String := "")
    (constraints : List String := []) : Option HierarchicalPlan :=
  let availableTools := reg
  let steps := decomposeGoal goal availableTools
  let plan0 : HierarchicalPlan :=
    { id := "plan"
      title := extractPlanTitle goal
      description := goal
      goal := goal
      steps := steps
      estimatedDuration := 0
      riskLevel := Tier.medium
      availableTools := availableTools
      contextConstraints := constraints }
  let validation := validatePlan reg plan0
  if validation.isValid then
    some { plan0 with
             estimatedDuration := calculateEstimatedDuration steps
             riskLevel := assessRiskLevel steps }
  else none

end HierarchicalPlanner

/-! Proof development: helper lemmas shared by the claim theorems. -/

open ResponseValidator ReasoningEngine HierarchicalPlanner in
/-- Unfolding lemma: the confidence of the step returned by
addReasoningStep is calculateStepConfidence of the freshly built step
against the stored chain; the validation outcome never changes it. -/
theorem addReasoningStep_fst_confidence (reg : List String)
    (chain : ReasoningChain) (stepType : ReasoningEngine.RStepType)
    (content : String) (evidence assumptions alternatives : List String) :
    (addReasoningStep reg chain stepType content evidence assumptions
      alternatives).fst.confidence =
    calculateStepConfidence
      { id := "step-" ++ toString chain.steps.length
        type := stepType
        content := content
        confidence := 0
        evidence := evidence
        assumptions := assumptions
        alternatives := alternatives
        validationStatus := VStatus.pending } chain := by
  unfold addReasoningStep
  dsimp only
  split <;> rfl

section ClaimC10

open ReasoningEngine

/-- Concrete inputs of the C10 witness. -/
def demoChain : ReasoningChain :=
  startReasoning "choose an approach" { availableTools := ["read_file"] }

/-- Decision point with no options for the C10 witness. -/
def c10Dp : DecisionPoint :=
  { id := "decision-1", question := "which option", options := [] }

/-- C10: makeDecision on a decision point whose options list is empty
aborts with the modelled runtime TypeError (options at index 0 is
undefined and its id field is read), returning no DecisionOption,
no updated decision point and no chain with an appended conclusion
step: the unstated precondition is a nonempty options list. -/
theorem makeDecision_empty_options_fails (reg : List String)
    (chain : ReasoningChain) (dp : DecisionPoint) (rationale : Option String)
    (h : dp.options = []) :
    makeDecision reg chain dp rationale = none := by
  unfold makeDecision
  rw [h]

/-- Witness: the C10 theorem applied to a concrete chain and an empty
decision point. -/
theorem makeDecision_empty_options_fails_witness :
    c10Dp.options = [] ∧ makeDecision ["read_file"] demoChain c10Dp none = none :=
  ⟨rfl, makeDecision_empty_options_fails ["read_file"] demoChain c10Dp none rfl⟩

end ClaimC10

section ClaimC6

open ReasoningEngine

/-- C6: the confidence computed for any step added through
addReasoningStep lies in the unit interval, in particular for every
combination of at most ten evidence items and at most ten assumptions. -/
theorem addReasoningStep_confidence_in_unit_interval (reg : List String)
    (chain : ReasoningChain) (stepType : ReasoningEngine.RStepType)
    (content : String) (evidence assumptions alternatives : List String)
    (hev : evidence.length ≤ 10) (has : assumptions.length ≤ 10) :
    0 ≤ (addReasoningStep reg chain stepType content evidence assumptions
        alternatives).fst.confidence ∧
    (addReasoningStep reg chain stepType content evidence assumptions
        alternatives).fst.confidence ≤ 1 := by
  rw [addReasoningStep_fst_confidence]
  unfold calculateStepConfidence
  dsimp only
  constructor
  · have hbase : (0 : ℚ) ≤ 0.5 +
        (if List.length evidence > 0 then
          min ((List.length evidence : ℚ) * 0.1) 0.3 else 0) +
        (if List.length assumptions == 0 then (0.1 : ℚ)
         else -(min ((List.length assumptions : ℚ) * 0.05) 0.2)) := by
      have h1 : (0 : ℚ) ≤
          (if List.length evidence > 0 then
            min ((List.length evidence : ℚ) * 0.1) 0.3 else 0) := by
        split
        · exact le_min (by positivity) (by norm_num)
        · exact le_refl 0
      have h2 : (-(0.2 : ℚ)) ≤
          (if List.length assumptions == 0 then (0.1 : ℚ)
           else -(min ((List.length assumptions : ℚ) * 0.05) 0.2)) := by
        split
        · norm_num
        · have := min_le_right ((List.length assumptions : ℚ) * 0.05) 0.2
          linarith
      linarith
    have htype : (0 : ℚ) ≤ stepTypeBonus stepType := by
      cases stepType <;> norm_num [stepTypeBonus]
    have hchain : (0 : ℚ) ≤
        (if chain.steps.length > 1 then
          match chain.steps.get? (chain.steps.length - 2) with
          | some prevStep =>
            if isLogicallyConsistent prevStep
                { id := "step-" ++ toString chain.steps.length
                  type := stepType
                  content := content
                  confidence := 0
                  evidence := evidence
                  assumptions := assumptions
                  alternatives := alternatives
                  validationStatus := VStatus.pending } then (0.1 : ℚ) else 0
          | none => 0
         else 0) := by
      split
      · split
        · split
          · norm_num
          · exact le_refl 0
        · exact le_refl 0
      · exact le_refl 0
    refine le_min ?_ (by norm_num)
    linarith
  · exact min_le_right _ 1

/-- Witness: the C6 theorem applied to a concrete chain and step with
three evidence items and two assumptions. -/
theorem addReasoningStep_confidence_in_unit_interval_witness :
    (["e1", "e2", "e3"] : List String).length ≤ 10 ∧
    (["a1", "a2"] : List String).length ≤ 10 ∧
    (0 ≤ (addReasoningStep ["read_file"] demoChain RStepType.verification
        "checking the hypothesis" ["e1", "e2", "e3"] ["a1", "a2"] []).fst.confidence ∧
      (addReasoningStep ["read_file"] demoChain RStepType.verification
        "checking the hypothesis" ["e1", "e2", "e3"] ["a1", "a2"] []).fst.confidence ≤ 1) :=
  ⟨by decide, by decide,
    addReasoningStep_confidence_in_unit_interval ["read_file"] demoChain
      RStepType.verification "checking the hypothesis" ["e1", "e2", "e3"]
      ["a1", "a2"] [] (by decide) (by decide)⟩

end ClaimC6

section ClaimC1

open ResponseValidator

/-- Membership of the critical availability issue produced for a tool
call naming an unavailable tool. -/
theorem mem_allRuleIssues_of_unavailable {resp : AIResponse} {ctx : PromptContext}
    (cs : ValidationConstraints) {tc : ToolCall} (htc : tc ∈ resp.toolCalls)
    (hname : tc.name ∉ ctx.availableTools) :
    ∃ i ∈ allRuleIssues resp ctx cs, i.severity = Severity.critical := by
  have hc : ctx.availableTools.contains tc.name = false := by
    simpa using hname
  refine ⟨{ type := IssueType.tool_not_available
            severity := Severity.critical
            message := "Tool '" ++ tc.name ++ "' is not available"
            location := "tool_calls"
            suggestedFix := some ("Use available tools: " ++
              String.intercalate ", " ctx.availableTools)
            evidence := some ["Available tools: " ++
              String.intercalate ", " ctx.availableTools] }, ?_, rfl⟩
  unfold allRuleIssues
  refine List.mem_append_left _ (List.mem_append_left _ ?_)
  refine List.mem_append_left _ (List.mem_append_left _ ?_)
  refine List.mem_append_left _ (List.mem_append_left _ ?_)
  refine List.mem_append_left _ ?_
  unfold toolAvailabilityRule
  refine List.mem_filterMap.mpr ⟨tc, htc, ?_⟩
  rw [hc]
  simp

/-- C1: validateResponse on a response calling an unavailable tool yields
a critical issue and blocks execution regardless of the score; and the
execution gate is false exactly when a critical issue exists, or safety
checks are on and an unsafe-operation issue exists, or the score is
below 0.6. -/
theorem validateResponse_unavailable_tool_blocks
    (resp : AIResponse) (ctx : PromptContext) (cs : ValidationConstraints) :
    ((∃ tc ∈ resp.toolCalls, tc.name ∉ ctx.availableTools) →
      (∃ i ∈ (validateResponse resp ctx cs).issues,
        i.severity = Severity.critical) ∧
      (validateResponse resp ctx cs).allowExecution = false) ∧
    ((validateResponse resp ctx cs).allowExecution = true ↔
      (¬∃ i ∈ (validateResponse resp ctx cs).issues,
          i.severity = Severity.critical) ∧
      ¬(cs.safetyChecks = true ∧
        ∃ i ∈ (validateResponse resp ctx cs).issues,
          i.type = IssueType.unsafe_operation) ∧
      (0.6 : ℚ) ≤ (validateResponse resp ctx cs).score) := by
  have hissues : (validateResponse resp ctx cs).issues = allRuleIssues resp ctx cs := rfl
  have hallow : (validateResponse resp ctx cs).allowExecution =
      shouldAllowExecution (allRuleIssues resp ctx cs)
        (calculateValidationScore (allRuleIssues resp ctx cs) resp) cs := rfl
  have hscore : (validateResponse resp ctx cs).score =
      calculateValidationScore (allRuleIssues resp ctx cs) resp := rfl
  constructor
  · intro ⟨tc, htc, hname⟩
    have hcrit := mem_allRuleIssues_of_unavailable cs htc hname
    refine ⟨by rw [hissues]; exact hcrit, ?_⟩
    rw [hallow]
    unfold shouldAllowExecution
    obtain ⟨i, hi, hsev⟩ := hcrit
    rw [if_pos]
    exact List.length_pos_iff_exists_mem.mpr
      ⟨i, List.mem_filter.mpr ⟨hi, by simp [hsev]⟩⟩
  · rw [hallow, hissues, hscore]
    unfold shouldAllowExecution
    split
    · rename_i h1
      simp only [Bool.false_eq_true, false_iff]
      intro ⟨hnc, _, _⟩
      exact hnc (by
        obtain ⟨i, hi⟩ := List.length_pos_iff_exists_mem.mp h1
        obtain ⟨hmem, hsev⟩ := List.mem_filter.mp hi
        exact ⟨i, hmem, by simpa using hsev⟩)
    · split
      · rename_i h1 h2
        simp only [Bool.false_eq_true, false_iff]
        intro ⟨_, hnu, _⟩
        obtain ⟨hsc, hpos⟩ : cs.safetyChecks = true ∧
            0 < ((allRuleIssues resp ctx cs).filter
              fun i => i.type == IssueType.unsafe_operation).length := by
          simpa using h2
        refine hnu ⟨hsc, ?_⟩
        obtain ⟨i, hi⟩ := List.length_pos_iff_exists_mem.mp hpos
        obtain ⟨hmem, hty⟩ := List.mem_filter.mp hi
        exact ⟨i, hmem, by simpa using hty⟩
      · rename_i h1 h2
        rw [decide_eq_true_iff]
        constructor
        · intro hle
          refine ⟨?_, ?_, hle⟩
          · intro ⟨i, hi, hsev⟩
            exact h1 (List.length_pos_iff_exists_mem.mpr
              ⟨i, List.mem_filter.mpr ⟨hi, by simp [hsev]⟩⟩)
          · intro ⟨hsc, i, hi, hty⟩
            have hpos : 0 < ((allRuleIssues resp ctx cs).filter
                fun i => i.type == IssueType.unsafe_operation).length :=
              List.length_pos_iff_exists_mem.mpr
                ⟨i, List.mem_filter.mpr ⟨hi, by simp [hty]⟩⟩
            exact h2 (by simp [hsc, hpos])
        · intro ⟨_, _, hle⟩
          exact hle

/-- Concrete response of the C1 witness: one call to rm_tool. -/
def c1Resp : AIResponse :=
  { content := "removing files"
    toolCalls := [{ name := "rm_tool", parameters := [("path", "/tmp/x")] }] }

/-- Concrete context of the C1 witness: rm_tool is not available. -/
def c1Ctx : PromptContext := { availableTools := ["read_file", "ls", "grep"] }

/-- Concrete constraints of the C1 witness. -/
def c1Cs : ValidationConstraints :=
  { minimumConfidence := 0.5, allowedTools := [], forbiddenOperations := []
    requireReasoning := false, requireEvidence := false, safetyChecks := true
    factChecking := false, maxToolCalls := 10, timeoutMs := 1000 }

/-- Witness: the C1 theorem applied to the rm_tool response. -/
theorem validateResponse_unavailable_tool_blocks_witness :
    (∃ tc ∈ c1Resp.toolCalls, tc.name ∉ c1Ctx.availableTools) ∧
    (∃ i ∈ (validateResponse c1Resp c1Ctx c1Cs).issues,
      i.severity = Severity.critical) ∧
    (validateResponse c1Resp c1Ctx c1Cs).allowExecution = false :=
  ⟨by decide,
    ((validateResponse_unavailable_tool_blocks c1Resp c1Ctx c1Cs).1 (by decide)).1,
    ((validateResponse_unavailable_tool_blocks c1Resp c1Ctx c1Cs).1 (by decide)).2⟩

end ClaimC1

section ClaimC8

open ResponseValidator

/-- Clean response with reasoning required: the C8 counterexample input. -/
def c8RespA : AIResponse := { content := "", toolCalls := [] }

/-- Constraints requiring reasoning for the C8 counterexample. -/
def c8CsA : ValidationConstraints :=
  { minimumConfidence := 0.5, allowedTools := [], forbiddenOperations := []
    requireReasoning := true, requireEvidence := false, safetyChecks := true
    factChecking := false, maxToolCalls := 10, timeoutMs := 1000 }

/-- Clean response carrying a self-reported confidence of 0.9: the second
C8 counterexample input. -/
def c8RespB : AIResponse :=
  { content := "", toolCalls := [], confidence := some 0.9 }

/-- Constraints not requiring reasoning for the C8 counterexample. -/
def c8CsB : ValidationConstraints :=
  { minimumConfidence := 0.5, allowedTools := [], forbiddenOperations := []
    requireReasoning := false, requireEvidence := false, safetyChecks := true
    factChecking := false, maxToolCalls := 10, timeoutMs := 1000 }

/-- Context of the C8 counterexample. -/
def c8Ctx : PromptContext := { availableTools := ["read_file"] }

/-- Counterexample to C8 as stated: both responses have no tool calls, no
reasoning steps and no forbidden content, yet the first scores 0.8 (the
required-reasoning rule fires) and the second scores 1.05 (the
high-confidence bonus is added above 1), so the score is not always 1. -/
theorem validateResponse_clean_score_not_always_one :
    (validateResponse c8RespA c8Ctx c8CsA).score = 0.8 ∧
    (validateResponse c8RespA c8Ctx c8CsA).score ≠ 1 ∧
    (validateResponse c8RespB c8Ctx c8CsB).score = 1.05 ∧
    (validateResponse c8RespB c8Ctx c8CsB).score ≠ 1 := by
  have hA : (validateResponse c8RespA c8Ctx c8CsA).score = 0.8 := by
    norm_num [validateResponse, allRuleIssues, toolAvailabilityRule,
      parameterValidationRule, safetyCheckRule, reasoningValidationRule,
      confidenceValidationRule, constraintComplianceRule,
      hallucinationDetectionRule, logicalConsistencyRule,
      calculateValidationScore, severityWeight, c8RespA, c8Ctx, c8CsA]
  have hB : (validateResponse c8RespB c8Ctx c8CsB).score = 1.05 := by
    norm_num [validateResponse, allRuleIssues, toolAvailabilityRule,
      parameterValidationRule, safetyCheckRule, reasoningValidationRule,
      confidenceValidationRule, constraintComplianceRule,
      hallucinationDetectionRule, logicalConsistencyRule,
      calculateValidationScore, severityWeight, c8RespB, c8Ctx, c8CsB]
  exact ⟨hA, by rw [hA]; norm_num, hB, by rw [hB]; norm_num⟩

/-- C8 amended: a response with no tool calls, no reasoning steps, no
forbidden content, no self-reported confidence, validated under
constraints that do not require reasoning, scores exactly 1 and is
allowed to execute. -/
theorem validateResponse_clean_response_perfect_score
    (resp : AIResponse) (ctx : PromptContext) (cs : ValidationConstraints)
    (h1 : resp.toolCalls = [])
    (h2 : resp.reasoning = none ∨ resp.reasoning = some [])
    (h3 : ∀ f ∈ cs.forbiddenOperations,
      includesStr (toLowerStr resp.content) (toLowerStr f) = false)
    (h4 : cs.requireReasoning = false)
    (h5 : resp.confidence = none) :
    (validateResponse resp ctx cs).score = 1 ∧
    (validateResponse resp ctx cs).allowExecution = true := by
  have hforbidden : constraintComplianceRule resp ctx cs = [] := by
    unfold constraintComplianceRule
    refine List.filterMap_eq_nil_iff.mpr fun f hf => ?_
    rw [h3 f hf]
    simp
  have hlogical : logicalConsistencyRule resp ctx cs = [] := by
    unfold logicalConsistencyRule
    rcases h2 with h | h <;> rw [h]
    rfl
  have hissues : allRuleIssues resp ctx cs = [] := by
    unfold allRuleIssues toolAvailabilityRule parameterValidationRule
      safetyCheckRule reasoningValidationRule confidenceValidationRule
      hallucinationDetectionRule
    rw [h1, h4, h5, hforbidden, hlogical]
    simp
  have hscore : (validateResponse resp ctx cs).score = 1 := by
    show calculateValidationScore (allRuleIssues resp ctx cs) resp = 1
    rw [hissues]
    unfold calculateValidationScore
    rcases h2 with h | h <;> rw [h, h5] <;> norm_num
  refine ⟨hscore, ?_⟩
  show shouldAllowExecution (allRuleIssues resp ctx cs)
      (calculateValidationScore (allRuleIssues resp ctx cs) resp) cs = true
  have hs : calculateValidationScore (allRuleIssues resp ctx cs) resp = 1 := hscore
  rw [hissues] at hs ⊢
  rw [hs]
  unfold shouldAllowExecution
  norm_num

/-- Clean concrete response of the C8 witness. -/
def c8RespW : AIResponse := { content := "listing the directory", toolCalls := [] }

/-- Constraints of the C8 witness, with a forbidden operation that the
content does not contain. -/
def c8CsW : ValidationConstraints :=
  { minimumConfidence := 0.5, allowedTools := [], forbiddenOperations := ["rm -rf"]
    requireReasoning := false, requireEvidence := false, safetyChecks := true
    factChecking := false, maxToolCalls := 10, timeoutMs := 1000 }

/-- Witness: the amended C8 theorem applied to a concrete clean response. -/
theorem validateResponse_clean_response_perfect_score_witness :
    (validateResponse c8RespW c8Ctx c8CsW).score = 1 ∧
    (validateResponse c8RespW c8Ctx c8CsW).allowExecution = true :=
  validateResponse_clean_response_perfect_score c8RespW c8Ctx c8CsW rfl
    (Or.inl rfl) (by decide) rfl rfl

end ClaimC8

section ClaimC5

open ReasoningEngine

/-- Recognized valid transition, on step types, as the spec lists them. -/
def validTransition (prev cur : ReasoningEngine.RStepType) : Bool :=
  (prev == RStepType.observation && cur == RStepType.hypothesis) ||
  (prev == RStepType.hypothesis && cur == RStepType.verification) ||
  (prev == RStepType.verification && cur == RStepType.conclusion)

/-- Modelled from the claim wording of C5: base 0.5, plus the capped
evidence bonus, minus the capped assumption penalty when assumptions are
present, plus the per-type bonus, plus 0.1 when the immediately preceding
step forms a valid transition with the new step, clamped to the unit
interval. -/
def specStepConfidence (stepType : ReasoningEngine.RStepType)
    (nEvidence nAssumptions : Nat) (prevType : Option ReasoningEngine.RStepType) : ℚ :=
  min (max (0.5 + min ((nEvidence : ℚ) * 0.1) 0.3 -
    (if 0 < nAssumptions then min ((nAssumptions : ℚ) * 0.05) 0.2 else 0) +
    (match stepType with
     | RStepType.observation => (0.1 : ℚ)
     | RStepType.verification => 0.2
     | RStepType.conclusion => 0.1
     | _ => 0) +
    (match prevType with
     | some t => if validTransition t stepType then (0.1 : ℚ) else 0
     | none => 0)) 0) 1

/-- Amended formula of C5: the code also adds 0.1 when there are no
assumptions at all, and the transition bonus compares the new step with
the stored step at index length - 2 (the second newest), only when the
chain already holds more than one step; the result never drops below 0.3,
so only the upper clamp acts. -/
def amendedStepConfidence (stepType : ReasoningEngine.RStepType)
    (nEvidence nAssumptions : Nat)
    (secondNewestType : Option ReasoningEngine.RStepType) : ℚ :=
  min (0.5 + min ((nEvidence : ℚ) * 0.1) 0.3 +
    (if nAssumptions = 0 then (0.1 : ℚ)
     else -(min ((nAssumptions : ℚ) * 0.05) 0.2)) +
    (match stepType with
     | RStepType.observation => (0.1 : ℚ)
     | RStepType.verification => 0.2
     | RStepType.conclusion => 0.1
     | _ => 0) +
    (match secondNewestType with
     | some t => if validTransition t stepType then (0.1 : ℚ) else 0
     | none => 0)) 1

/-- Context of the reasoning chains used by concrete reasoning steps. -/
def ctxR : ReasoningContext := { availableTools := ["read_file"] }

/-- Chain holding a single observation step. -/
def c5Chain1 : ReasoningChain := startReasoning "inspect the project" ctxR

/-- Chain holding an observation step and then an action step. -/
def c5Chain2 : ReasoningChain :=
  { id := "reasoning"
    goal := "inspect the project"
    steps :=
      [{ id := "step-0"
         type := RStepType.observation
         content := "Starting reasoning for goal: inspect the project"
         confidence := 0.9
         evidence := ["Goal: inspect the project"]
         assumptions := []
         alternatives := []
         validationStatus := VStatus.validated },
       { id := "step-1"
         type := RStepType.action
         content := "running a scan over sources"
         confidence := 0.6
         evidence := []
         assumptions := []
         alternatives := []
         validationStatus := VStatus.validated }]
    currentStep := 1
    overallConfidence := 0.6
    status := ChainStatus.active
    context := ctxR }

/-- Counterexample to C5 as stated, in three scenarios. First, adding a
hypothesis with one assumption right after the seed observation: the code
yields 0.45 (no transition bonus, because the transition check needs a
chain of more than one step), the claim formula yields 0.55. Second,
adding an observation with no assumptions: the code yields 0.7 (a 0.1
bonus for having zero assumptions that the claim omits), the claim
formula yields 0.6. Third, adding a hypothesis with one assumption to an
observation-then-action chain: the code compares against the
second-newest step (the observation) and yields 0.55, while the
immediately preceding step is an action, so the claim formula yields
0.45. -/
theorem stepConfidence_claim_formula_false :
    ((addReasoningStep ["read_file"] c5Chain1 RStepType.hypothesis
        "the project uses node" [] ["assume lockfile is current"] []).fst.confidence = 0.45 ∧
      specStepConfidence RStepType.hypothesis 0 1 (some RStepType.observation) = 0.55) ∧
    ((addReasoningStep ["read_file"] c5Chain1 RStepType.observation
        "the repository holds ten files" [] [] []).fst.confidence = 0.7 ∧
      specStepConfidence RStepType.observation 0 0 (some RStepType.observation) = 0.6) ∧
    ((addReasoningStep ["read_file"] c5Chain2 RStepType.hypothesis
        "the scan will finish" [] ["assume no timeout"] []).fst.confidence = 0.55 ∧
      specStepConfidence RStepType.hypothesis 0 1 (some RStepType.action) = 0.45) := by
  refine ⟨⟨?_, ?_⟩, ⟨?_, ?_⟩, ⟨?_, ?_⟩⟩
  · rw [addReasoningStep_fst_confidence]
    simp only [calculateStepConfidence, c5Chain1, startReasoning, ctxR, stepTypeBonus]
    norm_num [min_def]
  · unfold specStepConfidence
    norm_num [show validTransition RStepType.observation RStepType.hypothesis = true
      from rfl, min_def, max_def]
  · rw [addReasoningStep_fst_confidence]
    simp only [calculateStepConfidence, c5Chain1, startReasoning, ctxR, stepTypeBonus]
    norm_num [min_def]
  · unfold specStepConfidence
    norm_num [show validTransition RStepType.observation RStepType.observation = false
      from rfl, min_def, max_def]
  · rw [addReasoningStep_fst_confidence]
    simp only [calculateStepConfidence, c5Chain2, ctxR, stepTypeBonus,
      isLogicallyConsistent]
    norm_num [min_def]
  · unfold specStepConfidence
    norm_num [show validTransition RStepType.action RStepType.hypothesis = false
      from rfl, min_def, max_def]

/-- C5 amended: the confidence of every step added through
addReasoningStep equals the amended closed formula, applied to the
evidence and assumption counts, the step type, and the type of the
second-newest stored step when the chain holds more than one step. -/
theorem addReasoningStep_confidence_amended (reg : List String)
    (chain : ReasoningChain) (stepType : ReasoningEngine.RStepType)
    (content : String) (evidence assumptions alternatives : List String) :
    (addReasoningStep reg chain stepType content evidence assumptions
      alternatives).fst.confidence =
    amendedStepConfidence stepType evidence.length assumptions.length
      (if chain.steps.length > 1 then
        (chain.steps.get? (chain.steps.length - 2)).map ReasoningStep.type
       else none) := by
  rw [addReasoningStep_fst_confidence]
  unfold calculateStepConfidence amendedStepConfidence
  dsimp only
  congr 1
  have he : (if List.length evidence > 0 then
      min ((List.length evidence : ℚ) * 0.1) 0.3 else 0) =
      min ((List.length evidence : ℚ) * 0.1) 0.3 := by
    rcases Nat.eq_zero_or_pos evidence.length with h | h
    · rw [if_neg (by omega)]
      rw [h]
      norm_num
    · rw [if_pos h]
  have ha : (if (List.length assumptions == 0) = true then (0.1 : ℚ)
      else -(min ((List.length assumptions : ℚ) * 0.05) 0.2)) =
      (if List.length assumptions = 0 then (0.1 : ℚ)
       else -(min ((List.length assumptions : ℚ) * 0.05) 0.2)) := by
    by_cases h : List.length assumptions = 0
    · rw [if_pos (by simp [h]), if_pos h]
    · rw [if_neg (by simp [h]), if_neg h]
  have ht : stepTypeBonus stepType =
      (match stepType with
       | RStepType.observation => (0.1 : ℚ)
       | RStepType.verification => 0.2
       | RStepType.conclusion => 0.1
       | _ => 0) := by
    cases stepType <;> rfl
  have htr : (if chain.steps.length > 1 then
      match chain.steps.get? (chain.steps.length - 2) with
      | some prevStep =>
        if isLogicallyConsistent prevStep
            { id := "step-" ++ toString chain.steps.length
              type := stepType
              content := content
              confidence := 0
              evidence := evidence
              assumptions := assumptions
              alternatives := alternatives
              validationStatus := VStatus.pending } then (0.1 : ℚ) else 0
      | none => 0
     else 0) =
      (match (if chain.steps.length > 1 then
          (chain.steps.get? (chain.steps.length - 2)).map ReasoningStep.type
         else none) with
       | some t => if validTransition t stepType then (0.1 : ℚ) else 0
       | none => 0) := by
    by_cases h : chain.steps.length > 1
    · rw [if_pos h, if_pos h]
      cases hg : chain.steps.get? (chain.steps.length - 2) with
      | none => rfl
      | some prevStep =>
        dsimp only
        have hcons : isLogicallyConsistent prevStep
            { id := "step-" ++ toString chain.steps.length
              type := stepType
              content := content
              confidence := 0
              evidence := evidence
              assumptions := assumptions
              alternatives := alternatives
              validationStatus := VStatus.pending } =
            validTransition prevStep.type stepType := by
          unfold isLogicallyConsistent validTransition
          dsimp only
          cases prevStep.type <;> cases stepType <;> rfl
        rw [hcons]
        rfl
    · rw [if_neg h, if_neg h]
  rw [he, ha, ht, htr]

end ClaimC5

section ClaimC7

open ReasoningEngine

/-- Membership of the circular-reasoning issue whenever the token
similarity with some stored step other than the newest one is strictly
above 0.8. -/
theorem validateReasoningStep_circular_issue (reg : List String)
    (step : ReasoningEngine.ReasoningStep) (chain : ReasoningChain)
    (h : ∃ prev ∈ chain.steps.dropLast,
      (0.8 : ℚ) < calculateSimilarity (toLowerStr step.content)
        (toLowerStr prev.content)) :
    ∃ i ∈ (validateReasoningStep reg step chain).issues,
      i.type = RIssueType.circular_reasoning ∧ i.severity = Severity.high := by
  have hcirc : hasCircularReasoning step chain = true := by
    unfold hasCircularReasoning
    rw [List.any_eq_true]
    obtain ⟨prev, hmem, hlt⟩ := h
    exact ⟨prev, hmem, decide_eq_true hlt⟩
  refine ⟨{ type := RIssueType.circular_reasoning
            severity := Severity.high
            stepId := step.id
            description := "Circular reasoning detected"
            suggestedFix := "Provide new evidence or approach" }, ?_, rfl, rfl⟩
  show _ ∈ (validateReasoningStep reg step chain).issues
  unfold validateReasoningStep
  dsimp only
  rw [hcirc]
  refine List.mem_append_right _ ?_
  simp

/-- Stored observation step whose content the new steps resemble. -/
def c7Obs : ReasoningEngine.ReasoningStep :=
  { id := "step-0"
    type := RStepType.observation
    content := "a b c d"
    confidence := 1
    evidence := []
    assumptions := []
    alternatives := []
    validationStatus := VStatus.validated }

/-- Stored newest step of the two-step chain. -/
def c7Last : ReasoningEngine.ReasoningStep :=
  { id := "step-1"
    type := RStepType.action
    content := "unrelated remark entirely"
    confidence := 1
    evidence := []
    assumptions := []
    alternatives := []
    validationStatus := VStatus.validated }

/-- Two-step chain of the C7 scenarios. -/
def c7ChainA : ReasoningChain :=
  { id := "reasoning"
    goal := "inspect"
    steps := [c7Obs, c7Last]
    currentStep := 1
    overallConfidence := 1
    status := ChainStatus.active
    context := ctxR }

/-- Candidate step with exactly 80 percent token overlap with c7Obs. -/
def c7StepA : ReasoningEngine.ReasoningStep :=
  { id := "step-2"
    type := RStepType.hypothesis
    content := "a b c d e"
    confidence := 0
    evidence := []
    assumptions := []
    alternatives := []
    validationStatus := VStatus.pending }

/-- One-step chain of the second C7 scenario. -/
def c7ChainB : ReasoningChain :=
  { id := "reasoning"
    goal := "inspect"
    steps := [c7Obs]
    currentStep := 0
    overallConfidence := 1
    status := ChainStatus.active
    context := ctxR }

/-- Candidate step with content identical to c7Obs. -/
def c7StepB : ReasoningEngine.ReasoningStep :=
  { id := "step-1"
    type := RStepType.hypothesis
    content := "a b c d"
    confidence := 0
    evidence := []
    assumptions := []
    alternatives := []
    validationStatus := VStatus.pending }

/-- Counterexample to C7 as stated, in two scenarios. First, a step whose
token similarity with the earlier step c7Obs is exactly 0.8 (at least
0.8, as the claim demands) produces no issue at all: the code flags only
strict excess of 0.8. Second, a step whose content is identical to the
earlier step c7Obs (similarity 1) also produces no issue when c7Obs is
the newest stored step: the loop of the source skips the last stored
step. -/
theorem circularReasoning_claim_false :
    ((0.8 : ℚ) ≤ calculateSimilarity (toLowerStr c7StepA.content)
        (toLowerStr c7Obs.content) ∧
      c7Obs ∈ c7ChainA.steps ∧
      (validateReasoningStep ["read_file"] c7StepA c7ChainA).issues = []) ∧
    (calculateSimilarity (toLowerStr c7StepB.content)
        (toLowerStr c7Obs.content) = 1 ∧
      c7Obs ∈ c7ChainB.steps ∧
      (validateReasoningStep ["read_file"] c7StepB c7ChainB).issues = []) := by
  have hcountA : similarityCounts (toLowerStr c7StepA.content)
      (toLowerStr c7Obs.content) = (4, 5) := by decide
  have hsimA : calculateSimilarity (toLowerStr c7StepA.content)
      (toLowerStr c7Obs.content) = 4 / 5 := by
    unfold calculateSimilarity
    rw [hcountA]
    norm_num
  have hcountB : similarityCounts (toLowerStr c7StepB.content)
      (toLowerStr c7Obs.content) = (4, 4) := by decide
  have hsimB : calculateSimilarity (toLowerStr c7StepB.content)
      (toLowerStr c7Obs.content) = 1 := by
    unfold calculateSimilarity
    rw [hcountB]
    norm_num
  have hcircA : hasCircularReasoning c7StepA c7ChainA = false := by
    unfold hasCircularReasoning
    have hdrop : c7ChainA.steps.dropLast = [c7Obs] := rfl
    rw [hdrop]
    simp only [List.any_cons, List.any_nil, Bool.or_false]
    rw [decide_eq_false]
    rw [hsimA]
    norm_num
  refine ⟨⟨by rw [hsimA]; norm_num, List.Mem.head _, ?_⟩,
    ⟨hsimB, List.Mem.head _, ?_⟩⟩
  · show (validateReasoningStep ["read_file"] c7StepA c7ChainA).issues = []
    unfold validateReasoningStep
    dsimp only
    rw [hcircA]
    decide
  · decide

/-- Witness inputs of the amended C7 theorem: a candidate step identical
in content to c7Obs, validated against the two-step chain where c7Obs is
not the newest step. -/
def c7StepW : ReasoningEngine.ReasoningStep :=
  { id := "step-2"
    type := RStepType.hypothesis
    content := "a b c d"
    confidence := 0
    evidence := []
    assumptions := []
    alternatives := []
    validationStatus := VStatus.pending }

/-- Witness: the amended C7 theorem applied to a concrete chain and step
with full token overlap against a stored step other than the newest. -/
theorem validateReasoningStep_circular_issue_witness :
    (∃ prev ∈ c7ChainA.steps.dropLast,
      (0.8 : ℚ) < calculateSimilarity (toLowerStr c7StepW.content)
        (toLowerStr prev.content)) ∧
    ∃ i ∈ (validateReasoningStep ["read_file"] c7StepW c7ChainA).issues,
      i.type = RIssueType.circular_reasoning ∧ i.severity = Severity.high := by
  have hcount : similarityCounts (toLowerStr c7StepW.content)
      (toLowerStr c7Obs.content) = (4, 4) := by decide
  have hsim : calculateSimilarity (toLowerStr c7StepW.content)
      (toLowerStr c7Obs.content) = 1 := by
    unfold calculateSimilarity
    rw [hcount]
    norm_num
  have h : ∃ prev ∈ c7ChainA.steps.dropLast,
      (0.8 : ℚ) < calculateSimilarity (toLowerStr c7StepW.content)
        (toLowerStr prev.content) := by
    refine ⟨c7Obs, ?_, by rw [hsim]; norm_num⟩
    show c7Obs ∈ [c7Obs]
    exact List.Mem.head _
  exact ⟨h, validateReasoningStep_circular_issue ["read_file"] c7StepW c7ChainA h⟩

end ClaimC7

section ClaimC9

open HierarchicalPlanner

/-- C9 round trip: whenever createPlan succeeds, validating the returned
plan against the same registered tool set reports it valid. -/
theorem createPlan_validatePlan_roundtrip (reg : List String)
    (goal context : String) (constraints : List String)
    (plan : HierarchicalPlan)
    (h : createPlan reg goal context constraints = some plan) :
    (validatePlan reg plan).isValid = true := by
  unfold createPlan at h
  dsimp only at h
  split at h
  · rename_i hval
    obtain rfl := Option.some.inj h
    exact hval
  · exact absurd h (Option.noConfusion)

/-- Registered tools of the C9 witness. -/
def c9Reg : List String := ["read_file", "ls", "grep"]

/-- Goal of the C9 witness: classified as a file-system task by the word
file. -/
def c9Goal : String := "create a file with the summary"

/-- Witness: createPlan succeeds on the concrete goal and the C9 theorem
applies to the plan it returns. -/
theorem createPlan_validatePlan_roundtrip_witness :
    ∃ plan, createPlan c9Reg c9Goal "" [] = some plan ∧
      (validatePlan c9Reg plan).isValid = true :=
  match hp : createPlan c9Reg c9Goal "" [] with
  | some plan =>
    ⟨plan, rfl, createPlan_validatePlan_roundtrip c9Reg c9Goal "" [] plan hp⟩
  | none => absurd hp (by decide)

end ClaimC9

section ClaimC2

open HierarchicalPlanner

/-- Invocation guard of the execution loop: whenever a step body is
invoked, every dependency already has a successful result in the
accumulated list recorded at that moment. -/
theorem execLoop_invoked_deps (reg : List String) :
    ∀ (steps : List PlanStep) (acc : List StepResult),
      ∀ p ∈ (execLoop reg steps acc).snd, depsSatisfied p.fst p.snd = true := by
  intro steps
  induction steps with
  | nil =>
    intro acc p hp
    simp [execLoop] at hp
  | cons step rest ih =>
    intro acc p hp
    rw [execLoop] at hp
    by_cases hd : depsSatisfied step acc
    · rw [if_pos hd] at hp
      dsimp only at hp
      by_cases hb : (!(executeStep reg step acc).success &&
          step.fallbackStrategy.isNone) = true
      · rw [if_pos hb] at hp
        obtain rfl : p = (step, acc) := List.mem_singleton.mp hp
        exact hd
      · rw [if_neg hb] at hp
        rcases List.mem_cons.mp hp with rfl | hp2
        · exact hd
        · exact ih (acc ++ [executeStep reg step acc]) p hp2
    · rw [if_neg hd] at hp
      exact ih (acc ++ [depFailResult step]) p hp

/-- Registered tools of the C2 and C3 scenarios. -/
def c2Reg : List String := ["read_file"]

/-- Step A: requires a missing tool, so its execution fails; this variant
declares a fallback strategy. -/
def c2StepA : PlanStep :=
  { id := "A"
    title := "Fetch remote data"
    description := "Fetch data with a tool that is not registered"
    type := StepType.tool_call
    dependencies := []
    estimatedComplexity := Tier.low
    requiredTools := ["missing_tool"]
    fallbackStrategy := some "Continue with cached data" }

/-- Step B: depends on A and requires nothing. -/
def c2StepB : PlanStep :=
  { id := "B"
    title := "Summarize"
    description := "Summarize the fetched data"
    type := StepType.analysis
    dependencies := ["A"]
    estimatedComplexity := Tier.low
    requiredTools := [] }

/-- Plan of the amended C2 scenario: A fails but declares a fallback. -/
def c2PlanF : HierarchicalPlan :=
  { id := "plan"
    title := "demo"
    description := "demo"
    goal := "demo"
    steps := [c2StepA, c2StepB]
    estimatedDuration := 0
    riskLevel := Tier.low
    availableTools := c2Reg
    contextConstraints := [] }

/-- Results and invocation log of the amended C2 scenario. -/
def c2Out : List StepResult × List (PlanStep × List StepResult) :=
  (executePlanLog c2Reg c2PlanF).getD ([], [])

/-- C2 amended: executePlan invokes a step body only when every
dependency identifier already has a successful result in the accumulated
list; and in the concrete scenario where A fails but declares a fallback
strategy, the result list holds an entry for B with success false and no
tools used. -/
theorem executePlan_only_invokes_satisfied :
    (∀ (reg : List String) (plan : HierarchicalPlan)
        (out : List StepResult × List (PlanStep × List StepResult)),
      executePlanLog reg plan = some out →
      ∀ p ∈ out.snd, depsSatisfied p.fst p.snd = true) ∧
    (executePlan c2Reg c2PlanF = some c2Out.fst ∧
      ∃ r ∈ c2Out.fst, r.stepId = "B" ∧ r.success = false ∧
        r.toolsUsed = ([] : List String)) := by
  constructor
  · intro reg plan out h p hp
    unfold executePlanLog at h
    cases hs : topologicalSort plan.steps with
    | none => rw [hs] at h; exact absurd h (Option.noConfusion)
    | some sorted =>
      rw [hs] at h
      obtain rfl := Option.some.inj h
      exact execLoop_invoked_deps reg sorted [] p hp
  · exact ⟨rfl, by decide⟩

/-- Witness: the C2 theorem applied to the concrete two-step run; every
logged invocation passed the dependency guard. -/
theorem executePlan_only_invokes_satisfied_witness :
    executePlanLog c2Reg c2PlanF = some c2Out ∧
    (c2Out.snd.all fun p => depsSatisfied p.fst p.snd) = true :=
  ⟨rfl, by
    rw [List.all_eq_true]
    intro p hp
    exact executePlan_only_invokes_satisfied.1 c2Reg c2PlanF c2Out rfl p hp⟩

/-- Plan of the C2 counterexample: A fails and declares no fallback. -/
def c2PlanNoF : HierarchicalPlan :=
  { c2PlanF with steps := [{ c2StepA with fallbackStrategy := none }, c2StepB] }

/-- Results of the C2 counterexample run. -/
def c2OutNoF : List StepResult :=
  ((executePlanLog c2Reg c2PlanNoF).getD ([], [])).fst

/-- Counterexample to C2 as stated: when A fails and declares no fallback
strategy, the loop halts right after A, so the returned result list holds
a single entry and no result for B at all, while the claim demands a
failed result for B. -/
theorem executePlan_no_result_for_B :
    executePlan c2Reg c2PlanNoF = some c2OutNoF ∧
    c2OutNoF.length = 1 ∧
    ∀ r ∈ c2OutNoF, r.stepId ≠ "B" := by
  refine ⟨rfl, by decide, by decide⟩

end ClaimC2

section ClaimC3

open HierarchicalPlanner

/-- Length characterization of the execution loop: the returned result
list is shorter than the input step list exactly when the halt trigger
fires, that is when a step with satisfied dependencies fails on execution
without a fallback strategy while later steps remain. -/
theorem execLoop_length_lt_iff (reg : List String) :
    ∀ (steps : List PlanStep) (acc : List StepResult),
      ((execLoop reg steps acc).fst.length < acc.length + steps.length) ↔
        haltTrigger reg steps acc = true := by
  intro steps
  induction steps with
  | nil =>
    intro acc
    simp [execLoop, haltTrigger]
  | cons step rest ih =>
    intro acc
    rw [execLoop, haltTrigger]
    by_cases hd : depsSatisfied step acc
    · rw [if_pos hd, if_pos hd]
      dsimp only
      by_cases hb : (!(executeStep reg step acc).success &&
          step.fallbackStrategy.isNone) = true
      · rw [if_pos hb, if_pos hb]
        dsimp only
        rw [List.length_append]
        cases rest with
        | nil => simp
        | cons c cs => simp
      · rw [if_neg hb, if_neg hb]
        dsimp only
        have hlen : acc.length + (step :: rest).length =
            (acc ++ [executeStep reg step acc]).length + rest.length := by
          simp only [List.length_append, List.length_cons, List.length_nil]
          omega
        rw [hlen]
        exact ih (acc ++ [executeStep reg step acc])
    · rw [if_neg hd, if_neg hd]
      have hlen : acc.length + (step :: rest).length =
          (acc ++ [depFailResult step]).length + rest.length := by
        simp only [List.length_append, List.length_cons, List.length_nil]
        omega
      rw [hlen]
      exact ih (acc ++ [depFailResult step])

/-- C3 amended: an executePlan run returns fewer results than the sorted
step list exactly when some step with satisfied dependencies fails on
execution, declares no fallback strategy and leaves later steps
unprocessed; failures synthesized for unmet dependencies never halt the
loop, and failed steps with a fallback are always followed by continued
execution. -/
theorem executePlan_halts_iff (reg : List String) (plan : HierarchicalPlan)
    (sorted : List PlanStep) (res : List StepResult)
    (h1 : topologicalSort plan.steps = some sorted)
    (h2 : executePlan reg plan = some res) :
    res.length < sorted.length ↔ haltTrigger reg sorted [] = true := by
  unfold executePlan executePlanLog at h2
  rw [h1] at h2
  obtain rfl := Option.some.inj h2
  simpa using execLoop_length_lt_iff reg sorted []

/-- Sorted step list of the C3 witness scenario. -/
def c3SortedW : List PlanStep := (topologicalSort c2PlanF.steps).getD []

/-- Witness: the amended C3 theorem applied to the two-step plan where A
fails with a fallback; no halt occurs and the result list is full. -/
theorem executePlan_halts_iff_witness :
    topologicalSort c2PlanF.steps = some c3SortedW ∧
    executePlan c2Reg c2PlanF = some c2Out.fst ∧
    (c2Out.fst.length < c3SortedW.length ↔
      haltTrigger c2Reg c3SortedW [] = true) :=
  ⟨rfl, rfl, executePlan_halts_iff c2Reg c2PlanF c3SortedW c2Out.fst rfl rfl⟩

/-- Step C of the C3 counterexample: independent and successful. -/
def c3StepC : PlanStep :=
  { id := "C"
    title := "Report"
    description := "Write the report"
    type := StepType.analysis
    dependencies := []
    estimatedComplexity := Tier.low
    requiredTools := [] }

/-- Plan of the C3 counterexample: A fails with a fallback, B depends on
A and has no fallback, C is independent. -/
def c3Plan : HierarchicalPlan :=
  { c2PlanF with steps := [c2StepA, c2StepB, c3StepC] }

/-- Results of the C3 counterexample run. -/
def c3Res : List StepResult :=
  ((executePlanLog c2Reg c3Plan).getD ([], [])).fst

/-- Counterexample to C3 as stated: the run produces a result for every
step (no early halt), yet the result list holds a failed result whose
step declares no fallback strategy (the dependency failure synthesized
for B). The halting biconditional of the claim therefore fails in the
direction from a failed no-fallback result to an early halt. -/
theorem executePlan_halt_iff_claim_false :
    executePlan c2Reg c3Plan = some c3Res ∧
    c3Res.length = c3Plan.steps.length ∧
    ∃ r ∈ c3Res, r.success = false ∧
      ∃ s ∈ c3Plan.steps, s.id = r.stepId ∧ s.fallbackStrategy = none := by
  refine ⟨rfl, by decide, by decide⟩

end ClaimC3

section ClaimC4

open HierarchicalPlanner

/-- Dependency edge of a step list: from a step identifier to each of the
dependency identifiers of the first step carrying it. -/
def depEdge (steps : List PlanStep) (a b : String) : Prop :=
  ∃ s, findStep steps a = some s ∧ b ∈ s.dependencies

/-- No cycle is reachable from `v` along dependency edges. -/
def NoCycFrom (steps : List PlanStep) (v : String) : Prop :=
  ∀ b, Relation.ReflTransGen (depEdge steps) v b →
    ¬Relation.TransGen (depEdge steps) b b

/-- The recursion stack is a chain of dependency edges ending at `id`:
its head has an edge to `id`, and so on downward. -/
def ChainTo (steps : List PlanStep) : List String → String → Prop
  | [], _ => True
  | a :: rest, id => depEdge steps a id ∧ ChainTo steps rest a

/-- Every member of a chain stack reaches its endpoint through at least
one edge. -/
theorem chainTo_transGen (steps : List PlanStep) :
    ∀ (S : List String) (id x : String), ChainTo steps S id → x ∈ S →
      Relation.TransGen (depEdge steps) x id := by
  intro S
  induction S with
  | nil => intro id x _ hx; exact absurd hx (List.not_mem_nil x)
  | cons a rest ih =>
    intro id x hchain hx
    obtain ⟨ha, hrest⟩ := hchain
    rcases List.mem_cons.mp hx with rfl | hx2
    · exact Relation.TransGen.single ha
    · exact Relation.TransGen.tail (ih a x hrest hx2) ha

/-- Early-exit loop lemma: a true answer of the dependency loop comes
from a true answer of the visit function on one of the dependencies. -/
theorem cycleDepsLoop_true_elim {f : List String → String → Bool × List String}
    {C : Prop} :
    ∀ (ds : List String) (visited : List String),
      (cycleDepsLoop f visited ds).fst = true →
      (∀ v d, d ∈ ds → (f v d).fst = true → C) → C := by
  intro ds
  induction ds with
  | nil => intro visited h _; simp [cycleDepsLoop] at h
  | cons d rest ih =>
    intro visited h hf
    rw [cycleDepsLoop] at h
    by_cases hd : (f visited d).fst = true
    · exact hf visited d (List.mem_cons_self d rest) hd
    · rw [if_neg hd] at h
      exact ih (f visited d).snd h fun v e he hfe =>
        hf v e (List.mem_cons_of_mem d he) hfe

/-- Soundness of the fueled depth-first visit: a true answer under a
chain-shaped stack exhibits a dependency cycle. -/
theorem hasCycleAux_true_sound (steps : List PlanStep) :
    ∀ (fuel : Nat) (S visited : List String) (id : String),
      ChainTo steps S id → (hasCycleAux steps fuel S visited id).fst = true →
      ∃ b, Relation.TransGen (depEdge steps) b b := by
  intro fuel
  induction fuel with
  | zero => intro S visited id _ h; simp [hasCycleAux] at h
  | succ fuel ih =>
    intro S visited id hchain h
    rw [hasCycleAux] at h
    by_cases hS : id ∈ S
    · exact ⟨id, chainTo_transGen steps S id id hchain hS⟩
    · rw [if_neg hS] at h
      by_cases hV : id ∈ visited
      · rw [if_pos hV] at h
        exact absurd h (by simp)
      · rw [if_neg hV] at h
        cases hfind : findStep steps id with
        | none => rw [hfind] at h; exact absurd h (by simp)
        | some s =>
          rw [hfind] at h
          refine cycleDepsLoop_true_elim s.dependencies (id :: visited) h ?_
          intro v d hd hda
          exact ih (id :: S) v d ⟨⟨s, hfind, hd⟩, hchain⟩ hda

/-- Soundness of the outer loop of hasCyclicDependencies. -/
theorem hasCycleOuter_true_sound (steps : List PlanStep) :
    ∀ (pending : List PlanStep) (visited : List String),
      hasCycleOuter steps pending visited = true →
      ∃ b, Relation.TransGen (depEdge steps) b b := by
  intro pending
  induction pending with
  | nil => intro visited h; simp [hasCycleOuter] at h
  | cons s rest ih =>
    intro visited h
    rw [hasCycleOuter] at h
    by_cases hs : (hasCycleAux steps (cycleFuel steps) [] visited s.id).fst = true
    · exact hasCycleAux_true_sound steps (cycleFuel steps) [] visited s.id
        trivial hs
    · rw [if_neg hs] at h
      exact ih _ h

/-- All identifiers the cycle check can visit: step identifiers and
dependency identifiers. -/
def univIds (steps : List PlanStep) : Finset String :=
  ((steps.map fun s => s.id) ++ (steps.map fun s => s.dependencies).flatten).toFinset

/-- Number of universe identifiers not yet visited. -/
def unvisitedCount (steps : List PlanStep) (visited : List String) : Nat :=
  ((univIds steps).filter fun x => x ∉ visited).card

/-- Step identifiers lie in the identifier universe. -/
theorem mem_univIds_of_step {steps : List PlanStep} {s : PlanStep}
    (hs : s ∈ steps) : s.id ∈ univIds steps := by
  unfold univIds
  rw [List.mem_toFinset]
  exact List.mem_append_left _ (List.mem_map_of_mem _ hs)

/-- Dependency identifiers of a found step lie in the universe. -/
theorem mem_univIds_of_dep {steps : List PlanStep} {a d : String} {s : PlanStep}
    (hfind : findStep steps a = some s) (hd : d ∈ s.dependencies) :
    d ∈ univIds steps := by
  unfold univIds
  rw [List.mem_toFinset]
  refine List.mem_append_right _ ?_
  rw [List.mem_flatten]
  exact ⟨s.dependencies, List.mem_map_of_mem _
    (List.mem_of_find?_eq_some hfind), hd⟩

/-- A larger visited set leaves at most as many unvisited identifiers. -/
theorem unvisitedCount_le_of_subset {steps : List PlanStep}
    {v v' : List String} (h : v ⊆ v') :
    unvisitedCount steps v' ≤ unvisitedCount steps v := by
  unfold unvisitedCount
  refine Finset.card_le_card (Finset.monotone_filter_right _ ?_)
  intro x hx
  exact fun hmem => hx (h hmem)

/-- Visiting a fresh universe identifier strictly shrinks the unvisited
count. -/
theorem unvisitedCount_cons_lt {steps : List PlanStep} {v : List String}
    {id : String} (hu : id ∈ univIds steps) (hv : id ∉ v) :
    unvisitedCount steps (id :: v) < unvisitedCount steps v := by
  unfold unvisitedCount
  refine Finset.card_lt_card ?_
  rw [Finset.ssubset_iff_of_subset]
  · refine ⟨id, ?_, ?_⟩
    · rw [Finset.mem_filter]
      exact ⟨hu, by simpa using hv⟩
    · rw [Finset.mem_filter]
      intro ⟨_, habs⟩
      simp at habs
  · refine Finset.monotone_filter_right _ ?_
    intro x hx
    exact fun hmem => hx (List.mem_cons_of_mem _ hmem)

/-- The fuel of the implementation dominates every unvisited count. -/
theorem unvisitedCount_lt_cycleFuel (steps : List PlanStep)
    (v : List String) : unvisitedCount steps v + 1 ≤ cycleFuel steps := by
  unfold unvisitedCount cycleFuel
  have h1 : ((univIds steps).filter fun x => x ∉ v).card ≤ (univIds steps).card :=
    Finset.card_le_card (Finset.filter_subset _ _)
  have h2 : (univIds steps).card ≤
      ((steps.map fun s => s.id) ++ (steps.map fun s => s.dependencies).flatten).length :=
    List.toFinset_card_le _
  rw [List.length_append, List.length_map] at h2
  omega

/-- Facts established about a fully processed (black) identifier: its
reachable set stays inside the visited set and off the stack, and no
cycle is reachable from it. -/
def BlackProps (steps : List PlanStep) (V S : List String) (u : String) : Prop :=
  (∀ w, Relation.ReflTransGen (depEdge steps) u w → w ∈ V ∧ w ∉ S) ∧
  NoCycFrom steps u

/-- Invariant of the depth-first traversal: every visited identifier off
the stack is black. -/
def BlackInv (steps : List PlanStep) (V S : List String) : Prop :=
  ∀ u ∈ V, u ∉ S → BlackProps steps V S u

/-- Black properties survive growing the visited set and shrinking the
stack. -/
theorem blackProps_mono {steps : List PlanStep} {V V' S S' : List String}
    {u : String} (hV : V ⊆ V') (hS : S' ⊆ S)
    (h : BlackProps steps V S u) : BlackProps steps V' S' u := by
  refine ⟨fun w hw => ?_, h.2⟩
  obtain ⟨h1, h2⟩ := h.1 w hw
  exact ⟨hV h1, fun hmem => h2 (hS hmem)⟩

/-- Completeness of the fueled depth-first visit, jointly with the
dependency loop, by induction on the fuel: with adequate fuel a false
answer turns the visited identifier black, and preserves the black
invariant. A black identifier reaches only black identifiers and no
cycle. -/
theorem hasCycleAux_false_complete (steps : List PlanStep) :
    ∀ fuel : Nat,
      (∀ S V id out, unvisitedCount steps V + 1 ≤ fuel →
        id ∈ univIds steps → BlackInv steps V S →
        hasCycleAux steps fuel S V id = (false, out) →
        BlackInv steps out S ∧ V ⊆ out ∧ id ∉ S ∧ BlackProps steps out S id) ∧
      (∀ S V ds out, unvisitedCount steps V + 1 ≤ fuel →
        (∀ d ∈ ds, d ∈ univIds steps) → BlackInv steps V S →
        cycleDepsLoop (fun v d => hasCycleAux steps fuel S v d) V ds =
          (false, out) →
        BlackInv steps out S ∧ V ⊆ out ∧
          ∀ d ∈ ds, BlackProps steps out S d) := by
  intro fuel
  induction fuel with
  | zero =>
    constructor
    · intro S V id out hfuel
      exact absurd hfuel (by omega)
    · intro S V ds out hfuel
      exact absurd hfuel (by omega)
  | succ fuel ih =>
    have auxPart : ∀ S V id out, unvisitedCount steps V + 1 ≤ fuel + 1 →
        id ∈ univIds steps → BlackInv steps V S →
        hasCycleAux steps (fuel + 1) S V id = (false, out) →
        BlackInv steps out S ∧ V ⊆ out ∧ id ∉ S ∧
          BlackProps steps out S id := by
      intro S V id out hfuel hidu hBI h
      rw [hasCycleAux] at h
      by_cases hS : id ∈ S
      · rw [if_pos hS] at h
        exact absurd (congrArg Prod.fst h) (by simp)
      · rw [if_neg hS] at h
        by_cases hV : id ∈ V
        · rw [if_pos hV] at h
          obtain rfl : V = out := congrArg Prod.snd h
          exact ⟨hBI, fun x hx => hx, hS, hBI id hV hS⟩
        · rw [if_neg hV] at h
          cases hfind : findStep steps id with
          | none =>
            rw [hfind] at h
            obtain rfl : id :: V = out := congrArg Prod.snd h
            have hnoedge : ∀ c, ¬depEdge steps id c := by
              intro c hc
              obtain ⟨s, hf, _⟩ := hc
              rw [hfind] at hf
              exact Option.noConfusion hf
            have hreach : ∀ w, Relation.ReflTransGen (depEdge steps) id w →
                w = id := by
              intro w hw
              rcases Relation.ReflTransGen.cases_head hw with h1 | ⟨c, hc, _⟩
              · exact h1.symm
              · exact absurd hc (hnoedge c)
            have hprops : BlackProps steps (id :: V) S id := by
              constructor
              · intro w hw
                obtain rfl := hreach w hw
                exact ⟨List.mem_cons_self _ _, hS⟩
              · intro b hb htb
                obtain rfl := hreach b hb
                obtain ⟨c, hc, _⟩ := Relation.TransGen.head'_iff.mp htb
                exact hnoedge c hc
            refine ⟨?_, fun x hx => List.mem_cons_of_mem _ hx, hS, hprops⟩
            intro u hu hus
            rcases List.mem_cons.mp hu with rfl | hu2
            · exact hprops
            · exact blackProps_mono (fun x hx => List.mem_cons_of_mem _ hx)
                (fun x hx => hx) (hBI u hu2 hus)
          | some s =>
            rw [hfind] at h
            have hfuel2 : unvisitedCount steps (id :: V) + 1 ≤ fuel := by
              have hlt := unvisitedCount_cons_lt hidu hV
              omega
            have hds : ∀ d ∈ s.dependencies, d ∈ univIds steps :=
              fun d hd => mem_univIds_of_dep hfind hd
            have hBI2 : BlackInv steps (id :: V) (id :: S) := by
              intro u hu hus
              rcases List.mem_cons.mp hu with rfl | hu2
              · exact absurd (List.mem_cons_self _ _) hus
              · have husS : u ∉ S := fun hmem => hus (List.mem_cons_of_mem _ hmem)
                obtain ⟨hr, hn⟩ := hBI u hu2 husS
                constructor
                · intro w hw
                  obtain ⟨hw1, hw2⟩ := hr w hw
                  refine ⟨List.mem_cons_of_mem _ hw1, ?_⟩
                  intro hmem
                  rcases List.mem_cons.mp hmem with rfl | hw3
                  · exact hV hw1
                  · exact hw2 hw3
                · exact hn
            obtain ⟨hBI3, hsub3, hprops3⟩ :=
              ih.2 (id :: S) (id :: V) s.dependencies out hfuel2 hds hBI2 h
            have hedge_dep : ∀ c, depEdge steps id c → c ∈ s.dependencies := by
              intro c hc
              obtain ⟨s2, hf2, hc2⟩ := hc
              rw [hfind] at hf2
              obtain rfl := Option.some.inj hf2
              exact hc2
            have hidout : id ∈ out := hsub3 (List.mem_cons_self _ _)
            have hreachId : ∀ w, Relation.ReflTransGen (depEdge steps) id w →
                w ∈ out ∧ w ∉ S := by
              intro w hw
              rcases Relation.ReflTransGen.cases_head hw with h1 | ⟨c, hc, hcw⟩
              · exact h1 ▸ ⟨hidout, hS⟩
              · obtain ⟨hw1, hw2⟩ := (hprops3 c (hedge_dep c hc)).1 w hcw
                exact ⟨hw1, fun hmem => hw2 (List.mem_cons_of_mem _ hmem)⟩
            have hnocycId : NoCycFrom steps id := by
              intro b hb htb
              rcases Relation.ReflTransGen.cases_head hb with h1 | ⟨c, hc, hcb⟩
              · obtain rfl := h1
                obtain ⟨c, hc, hcid⟩ := Relation.TransGen.head'_iff.mp htb
                have := (hprops3 c (hedge_dep c hc)).1 id hcid
                exact this.2 (List.mem_cons_self _ _)
              · exact (hprops3 c (hedge_dep c hc)).2 b hcb htb
            have hpropsId : BlackProps steps out S id := ⟨hreachId, hnocycId⟩
            refine ⟨?_, fun x hx => hsub3 (List.mem_cons_of_mem _ hx), hS, hpropsId⟩
            intro u hu hus
            by_cases hui : u = id
            · exact hui ▸ hpropsId
            · have husS2 : u ∉ id :: S := by
                intro hmem
                rcases List.mem_cons.mp hmem with rfl | h2
                · exact hui rfl
                · exact hus h2
              exact blackProps_mono (fun x hx => hx)
                (fun x hx => List.mem_cons_of_mem _ hx) (hBI3 u hu husS2)
    have depsPart : ∀ (ds : List String) S V out,
        unvisitedCount steps V + 1 ≤ fuel + 1 →
        (∀ d ∈ ds, d ∈ univIds steps) → BlackInv steps V S →
        cycleDepsLoop (fun v d => hasCycleAux steps (fuel + 1) S v d) V ds =
          (false, out) →
        BlackInv steps out S ∧ V ⊆ out ∧
          ∀ d ∈ ds, BlackProps steps out S d := by
      intro ds
      induction ds with
      | nil =>
        intro S V out _ _ hBI h
        rw [cycleDepsLoop] at h
        obtain rfl : V = out := congrArg Prod.snd h
        exact ⟨hBI, fun x hx => hx, fun d hd => absurd hd (List.not_mem_nil d)⟩
      | cons d rest ihds =>
        intro S V out hfuel hds hBI h
        rw [cycleDepsLoop] at h
        by_cases hd1 : (hasCycleAux steps (fuel + 1) S V d).fst = true
        · rw [if_pos hd1] at h
          exact absurd (congrArg Prod.fst h) (by simp)
        · rw [if_neg hd1] at h
          have hfst : (hasCycleAux steps (fuel + 1) S V d).fst = false := by
            revert hd1
            cases (hasCycleAux steps (fuel + 1) S V d).fst <;> simp
          have heq : hasCycleAux steps (fuel + 1) S V d =
              (false, (hasCycleAux steps (fuel + 1) S V d).snd) :=
            Prod.ext_iff.mpr ⟨hfst, rfl⟩
          obtain ⟨hBIa, hsuba, _, hpropsa⟩ := auxPart S V d _ hfuel
            (hds d (List.mem_cons_self d rest)) hBI heq
          have hfuelr : unvisitedCount steps
              ((hasCycleAux steps (fuel + 1) S V d).snd) + 1 ≤ fuel + 1 := by
            have hle := @unvisitedCount_le_of_subset steps _ _ hsuba
            omega
          obtain ⟨hBIr, hsubr, hpropsr⟩ := ihds S _ out hfuelr
            (fun e he => hds e (List.mem_cons_of_mem d he)) hBIa h
          refine ⟨hBIr, fun x hx => hsubr (hsuba hx), ?_⟩
          intro e he
          rcases List.mem_cons.mp he with rfl | he2
          · exact blackProps_mono hsubr (fun x hx => hx) hpropsa
          · exact hpropsr e he2
    exact ⟨auxPart, fun S V ds out => depsPart ds S V out⟩

/-- Completeness of the outer loop: a false answer certifies that no
pending step identifier reaches a dependency cycle. -/
theorem hasCycleOuter_false_complete (steps : List PlanStep) :
    ∀ (pending : List PlanStep) (visited : List String),
      BlackInv steps visited [] →
      (∀ s ∈ pending, s.id ∈ univIds steps) →
      hasCycleOuter steps pending visited = false →
      ∀ s ∈ pending, NoCycFrom steps s.id := by
  intro pending
  induction pending with
  | nil =>
    intro visited _ _ _ s hs
    exact absurd hs (List.not_mem_nil s)
  | cons p rest ihp =>
    intro visited hBI hids h
    rw [hasCycleOuter] at h
    by_cases h1 : (hasCycleAux steps (cycleFuel steps) [] visited p.id).fst = true
    · rw [if_pos h1] at h
      exact absurd h (by simp)
    · rw [if_neg h1] at h
      have hfst : (hasCycleAux steps (cycleFuel steps) [] visited p.id).fst
          = false := by
        revert h1
        cases (hasCycleAux steps (cycleFuel steps) [] visited p.id).fst <;> simp
      have heq : hasCycleAux steps (cycleFuel steps) [] visited p.id =
          (false, (hasCycleAux steps (cycleFuel steps) [] visited p.id).snd) :=
        Prod.ext_iff.mpr ⟨hfst, rfl⟩
      obtain ⟨hBI2, _, _, hprops⟩ :=
        (hasCycleAux_false_complete steps (cycleFuel steps)).1 [] visited p.id _
          (unvisitedCount_lt_cycleFuel steps visited)
          (hids p (List.mem_cons_self p rest)) hBI heq
      intro s hs
      rcases List.mem_cons.mp hs with rfl | hs2
      · exact hprops.2
      · exact ihp _ hBI2 (fun t ht => hids t (List.mem_cons_of_mem p ht)) h s hs2

/-- The cycle check answers true exactly when some identifier closes a
cycle of dependency edges. -/
theorem hasCyclicDependencies_iff_cycle (steps : List PlanStep) :
    hasCyclicDependencies steps = true ↔
      ∃ b, Relation.TransGen (depEdge steps) b b := by
  constructor
  · intro h
    exact hasCycleOuter_true_sound steps steps [] h
  · rintro ⟨b, hb⟩
    by_contra hfalse
    have hf : hasCycleOuter steps steps [] = false := by
      revert hfalse
      unfold hasCyclicDependencies
      cases hasCycleOuter steps steps [] <;> simp
    have hnc := hasCycleOuter_false_complete steps steps []
      (fun u hu _ => absurd hu (List.not_mem_nil u))
      (fun s hs => mem_univIds_of_step hs) hf
    obtain ⟨c, hedge, _⟩ := Relation.TransGen.head'_iff.mp hb
    obtain ⟨s, hfind, _⟩ := hedge
    have hsmem : s ∈ steps := List.mem_of_find?_eq_some hfind
    have hsid : s.id = b := by
      have hp := List.find?_some hfind
      simpa using hp
    exact hnc s hsmem b (by rw [hsid]) hb

/-- A tool-availability error message never equals the circular
dependency message: their first characters differ. -/
theorem toolMsg_ne_cycleMsg (t i : String) :
    ("Required tool '" ++ t ++ "' is not available for step '" ++ i ++ "'") ≠
      "Plan contains circular dependencies" := by
  intro h
  have hd := congrArg String.data h
  rw [String.data_append, String.data_append, String.data_append,
    String.data_append] at hd
  rw [show ("Required tool '" : String).data =
    'R' :: ("equired tool '" : String).data from rfl] at hd
  simp only [List.cons_append] at hd
  injection hd with h1 _
  exact absurd h1 (by decide)

/-- An orphan-dependency error message never equals the circular
dependency message: their first characters differ. -/
theorem orphanMsg_ne_cycleMsg (i d : String) :
    ("Step '" ++ i ++ "' depends on non-existent step '" ++ d ++ "'") ≠
      "Plan contains circular dependencies" := by
  intro h
  have hd := congrArg String.data h
  rw [String.data_append, String.data_append, String.data_append,
    String.data_append] at hd
  rw [show ("Step '" : String).data =
    'S' :: ("tep '" : String).data from rfl] at hd
  simp only [List.cons_append] at hd
  injection hd with h1 _
  exact absurd h1 (by decide)

/-- The circular dependency message sits in the error list of
validatePlan exactly when the cycle check answers true: the other two
error families carry differently shaped messages. -/
theorem validatePlan_cycle_mem_iff (reg : List String)
    (plan : HierarchicalPlan) :
    ("Plan contains circular dependencies" ∈ (validatePlan reg plan).errors) ↔
      hasCyclicDependencies plan.steps = true := by
  have herr : (validatePlan reg plan).errors =
      (if hasCyclicDependencies plan.steps then
        ["Plan contains circular dependencies"] else []) ++
      (plan.steps.map fun step =>
        step.requiredTools.filterMap fun tool =>
          if reg.contains tool then none
          else some ("Required tool '" ++ tool ++
            "' is not available for step '" ++ step.id ++ "'")).flatten ++
      (plan.steps.map fun step =>
        step.dependencies.filterMap fun dep =>
          if ((plan.steps.map fun s => s.id).contains dep) then none
          else some ("Step '" ++ step.id ++
            "' depends on non-existent step '" ++ dep ++ "'")).flatten := rfl
  constructor
  · intro hmem
    rw [herr] at hmem
    rcases List.mem_append.mp hmem with h12 | h3
    · rcases List.mem_append.mp h12 with h1 | h2
      · by_cases hc : hasCyclicDependencies plan.steps = true
        · exact hc
        · rw [if_neg hc] at h1
          exact absurd h1 (List.not_mem_nil _)
      · rw [List.mem_flatten] at h2
        obtain ⟨l, hl, hml⟩ := h2
        rw [List.mem_map] at hl
        obtain ⟨step, _, rfl⟩ := hl
        rw [List.mem_filterMap] at hml
        obtain ⟨tool, _, htool⟩ := hml
        by_cases hr : reg.contains tool = true
        · rw [if_pos hr] at htool
          exact Option.noConfusion htool
        · rw [if_neg hr] at htool
          exact absurd (Option.some.inj htool) (toolMsg_ne_cycleMsg tool step.id)
    · rw [List.mem_flatten] at h3
      obtain ⟨l, hl, hml⟩ := h3
      rw [List.mem_map] at hl
      obtain ⟨step, _, rfl⟩ := hl
      rw [List.mem_filterMap] at hml
      obtain ⟨dep, _, hdep⟩ := hml
      by_cases hr : ((plan.steps.map fun s => s.id).contains dep) = true
      · rw [if_pos hr] at hdep
        exact Option.noConfusion hdep
      · rw [if_neg hr] at hdep
        exact absurd (Option.some.inj hdep) (orphanMsg_ne_cycleMsg step.id dep)
  · intro hc
    rw [herr, if_pos hc]
    exact List.mem_append_left _
      (List.mem_append_left _ (List.mem_cons_self _ _))

/-- The concrete three-step cycle of the claim: A depends on B, B on C,
C on A. -/
def c4Step (i d : String) : PlanStep :=
  { id := i
    title := "t"
    description := "d"
    type := StepType.analysis
    dependencies := [d]
    estimatedComplexity := Tier.low
    requiredTools := [] }

def c4Plan : HierarchicalPlan :=
  { id := "p"
    title := "cycle plan"
    description := "d"
    goal := "g"
    steps := [c4Step "A" "B", c4Step "B" "C", c4Step "C" "A"]
    estimatedDuration := 0
    riskLevel := Tier.low
    availableTools := []
    contextConstraints := [] }

/-- C4: for every registered tool set and every plan, validatePlan lists
the circular-dependency error exactly when some identifier closes a
cycle of dependency edges (a step reachable from itself through
dependencies), and whenever such a cycle exists the plan is reported
invalid - in particular the three-step cycle A depending on B, B on C
and C on A is rejected, as the witness instantiates. -/
theorem validatePlan_cycle_error_iff (reg : List String)
    (plan : HierarchicalPlan) :
    (("Plan contains circular dependencies" ∈ (validatePlan reg plan).errors) ↔
      ∃ b, Relation.TransGen (depEdge plan.steps) b b) ∧
    ((∃ b, Relation.TransGen (depEdge plan.steps) b b) →
      (validatePlan reg plan).isValid = false) := by
  constructor
  · rw [validatePlan_cycle_mem_iff reg plan]
    exact hasCyclicDependencies_iff_cycle plan.steps
  · intro hcyc
    have hmem : "Plan contains circular dependencies" ∈
        (validatePlan reg plan).errors :=
      (validatePlan_cycle_mem_iff reg plan).mpr
        ((hasCyclicDependencies_iff_cycle plan.steps).mpr hcyc)
    have hv : (validatePlan reg plan).isValid =
        (validatePlan reg plan).errors.isEmpty := rfl
    rw [hv]
    cases herrs : (validatePlan reg plan).errors with
    | nil => exact absurd (herrs ▸ hmem) (List.not_mem_nil _)
    | cons a l => rfl

/-- Witness for C4 at the concrete three-step cycle: the cycle closes at
identifier A, so the error message is listed and the plan is invalid. -/
theorem validatePlan_cycle_error_iff_witness :
    ("Plan contains circular dependencies" ∈ (validatePlan [] c4Plan).errors) ∧
      (validatePlan [] c4Plan).isValid = false := by
  have e1 : depEdge c4Plan.steps "A" "B" :=
    ⟨c4Step "A" "B", by decide, by decide⟩
  have e2 : depEdge c4Plan.steps "B" "C" :=
    ⟨c4Step "B" "C", by decide, by decide⟩
  have e3 : depEdge c4Plan.steps "C" "A" :=
    ⟨c4Step "C" "A", by decide, by decide⟩
  have hcyc : ∃ b, Relation.TransGen (depEdge c4Plan.steps) b b :=
    ⟨"A", Relation.TransGen.head e1
      (Relation.TransGen.head e2 (Relation.TransGen.single e3))⟩
  exact ⟨(validatePlan_cycle_error_iff [] c4Plan).1.mpr hcyc,
    (validatePlan_cycle_error_iff [] c4Plan).2 hcyc⟩

end ClaimC4

end Gemini
